import Mathlib

/-!
Verification development for the projex synchronization subsystem.

This file gives a shallow embedding, in Lean 4, of the parts of the Rust
code base that the checked properties are about:

* `src-tauri/src/sync/vector_clock.rs`  — vector clocks,
* `src-tauri/src/sync/delta_sync.rs`    — delta codec and delta engine,
* `src-tauri/src/sync/snapshot.rs`      — snapshot creation,
* `src-tauri/src/app/data_transfer.rs`  — JSON export (used by snapshots),
* `src-tauri/src/commands/sync.rs`      — the sync pipeline, cursors and
  configuration import,
* `src-tauri/src/domain/status.rs`      — the project status machine.

Modelling conventions:

* Rust `i64` is modelled as `Int` and machine overflow is out of scope
  (the code never relies on wrap-around).
* `serde_json::Value` is modelled by the inductive `Json` below, with
  numbers restricted to integers (the replicated rows only carry strings,
  integers and booleans).
* SQLite tables are modelled as lists of row structures; `INSERT OR
  REPLACE` is modelled as deletion of the rows with the same primary key
  followed by an append, matching SQLite's conflict semantics.
* `HashMap<String, i64>` is modelled as an association list; equality of
  lists is finer than equality of maps, so every positive statement proved
  about the list model also holds for the map.
* The gzip layer (`flate2`) and the JSON text layer (`serde_json`
  `to_string`/`from_str`) are bijective on the values the code exchanges;
  blobs on the object store are therefore modelled at the JSON-value
  level (`Json`), and `Delta::compress`/`Delta::decompress` map between
  `Delta` and its serde JSON encoding, which is where all the information
  loss or preservation happens.
* `SHA-256` is implemented executably below, so checksums are real.
-/

/-! ## Characters, strings and decimal numerals

The Rust code calls `i64::to_string`, `str::parse::<i64>` and `str::trim`
on cursor values.  Those functions are std-library code, modelled here by
executable Lean functions over the character list of a `String`.
-/

/-- Decimal digit character for a value below ten, as in Rust's numeral
rendering. -/
def decDigitChar (n : Nat) : Char :=
  Char.ofNat (48 + n)

/-- Digits of a natural number, most significant first; `fuel` bounds the
recursion and any `fuel > n` computes the true digit list. -/
def natDecDigits : Nat → Nat → List Char
  | 0, _ => []
  | fuel + 1, n =>
    if n < 10 then [decDigitChar n] else natDecDigits fuel (n / 10) ++ [decDigitChar (n % 10)]

/-- Decimal rendering of a natural number (model of Rust `u64::to_string`
on values that fit). -/
def natToDecString (n : Nat) : String :=
  ⟨natDecDigits (n + 1) n⟩

/-- Decimal rendering of an integer (model of Rust `i64::to_string`). -/
def intToDecString (i : Int) : String :=
  if i < 0 then "-" ++ natToDecString (-i).toNat else natToDecString i.toNat

/-- Value of a decimal digit character, if it is one. -/
def decDigitVal? (c : Char) : Option Nat :=
  if 48 ≤ c.toNat ∧ c.toNat ≤ 57 then some (c.toNat - 48) else none

/-- Fold a digit string into a number, failing on a non-digit. -/
def parseNatCore : List Char → Nat → Option Nat
  | [], acc => some acc
  | c :: cs, acc =>
    match decDigitVal? c with
    | some d => parseNatCore cs (acc * 10 + d)
    | none => none

/-- Parse a non-empty all-digit character list. -/
def parseDecNat? : List Char → Option Nat
  | [] => none
  | c :: cs => parseNatCore (c :: cs) 0

/-- Model of Rust `str::parse::<i64>`: an optional sign followed by at
least one decimal digit (machine overflow out of scope). -/
def parseI64? (s : String) : Option Int :=
  match s.data with
  | [] => none
  | c :: rest =>
    if c = '-' then (parseDecNat? rest).map (fun n => -(n : Int))
    else if c = '+' then (parseDecNat? rest).map (fun n => (n : Int))
    else (parseDecNat? (c :: rest)).map (fun n => (n : Int))

/-- Whitespace test used by the model of Rust `str::trim` (the values the
code trims are decimal numerals, which contain no exotic whitespace). -/
def isWsChar (c : Char) : Bool :=
  c = ' ' || c = '\t' || c = '\n' || c = '\r'

/-- Trim whitespace from both ends of a character list. -/
def trimChars (cs : List Char) : List Char :=
  ((cs.dropWhile isWsChar).reverse.dropWhile isWsChar).reverse

/-- Model of Rust `str::trim`. -/
def strTrim (s : String) : String :=
  ⟨trimChars s.data⟩

/-- List version of prefix removal (`str::strip_prefix`). -/
def stripPreList : List Char → List Char → Option (List Char)
  | [], s => some s
  | _ :: _, [] => none
  | p :: ps, c :: cs => if p = c then stripPreList ps cs else none

/-- Model of Rust `str::strip_prefix`. -/
def stripPreStr (p s : String) : Option String :=
  (stripPreList p.data s.data).map (fun cs => ⟨cs⟩)

/-- Model of Rust `str::strip_suffix`. -/
def stripSufStr (p s : String) : Option String :=
  (stripPreList p.data.reverse s.data.reverse).map (fun cs => ⟨cs.reverse⟩)

/-- Does `p` start the string `s` (model of Rust `str::starts_with`)? -/
def strStarts (p s : String) : Bool :=
  (stripPreList p.data s.data).isSome

/-- Split at the first occurrence of a character, the separator removed
(model of Rust `str::split_once`). -/
def splitOnceChar (c : Char) : List Char → Option (List Char × List Char)
  | [] => none
  | x :: xs =>
    if x = c then some ([], xs)
    else (splitOnceChar c xs).map (fun p => (x :: p.1, p.2))

/-- Model of Rust `str::split_once` on strings. -/
def splitOnceStr (c : Char) (s : String) : Option (String × String) :=
  (splitOnceChar c s.data).map (fun p => (⟨p.1⟩, ⟨p.2⟩))

/-! ## Association lists

`sync_config`, `vector_clocks` (global scope) and the object-store bucket
are key/value stores; `INSERT OR REPLACE` keyed on the key column is
`setAssoc`, point lookup is `getAssoc`. -/

/-- Replace the value at a key, or append the pair when the key is new
(model of `INSERT OR REPLACE` on a keyed store, and of an S3 `PUT`; keys
are unique in such a store, so replacing the first match is replacing
the match). -/
def setAssoc {β : Type} : List (String × β) → String → β → List (String × β)
  | [], k, v => [(k, v)]
  | p :: rest, k, v => if p.1 = k then (k, v) :: rest else p :: setAssoc rest k v

/-- Look up the value at a key. -/
def getAssoc {β : Type} (l : List (String × β)) (k : String) : Option β :=
  (l.find? (fun p => p.1 = k)).map (fun p => p.2)

/-- Delete the entry at a key (model of `DELETE ... WHERE key = ?`). -/
def delAssoc {β : Type} (l : List (String × β)) (k : String) : List (String × β) :=
  l.filter (fun p => p.1 ≠ k)

/-! ## JSON values

Model of `serde_json::Value`, with numbers restricted to integers. -/

/-- JSON value (model of `serde_json::Value`; numbers are integers). -/
inductive Json where
  | null : Json
  | bool (b : Bool) : Json
  | num (n : Int) : Json
  | str (s : String) : Json
  | arr (elems : List Json) : Json
  | obj (fields : List (String × Json)) : Json
deriving Repr

mutual

/-- Boolean structural equality of JSON values. -/
def Json.beq : Json → Json → Bool
  | .null, .null => true
  | .bool a, .bool b => a == b
  | .num a, .num b => a == b
  | .str a, .str b => a == b
  | .arr xs, .arr ys => Json.beqList xs ys
  | .obj xs, .obj ys => Json.beqObj xs ys
  | _, _ => false

/-- Boolean equality of JSON arrays. -/
def Json.beqList : List Json → List Json → Bool
  | [], [] => true
  | x :: xs, y :: ys => Json.beq x y && Json.beqList xs ys
  | _, _ => false

/-- Boolean equality of JSON object field lists. -/
def Json.beqObj : List (String × Json) → List (String × Json) → Bool
  | [], [] => true
  | (k1, v1) :: xs, (k2, v2) :: ys => k1 == k2 && Json.beq v1 v2 && Json.beqObj xs ys
  | _, _ => false

end

mutual

/-- The boolean equality on `Json` decides propositional equality. -/
theorem Json.beq_iff : ∀ a b : Json, Json.beq a b = true ↔ a = b
  | .null, .null => by simp [Json.beq]
  | .bool _, .bool _ => by simp [Json.beq]
  | .num _, .num _ => by simp [Json.beq]
  | .str _, .str _ => by simp [Json.beq]
  | .arr xs, .arr ys => by
    simp only [Json.beq]
    rw [Json.beqList_iff xs ys]
    simp
  | .obj xs, .obj ys => by
    simp only [Json.beq]
    rw [Json.beqObj_iff xs ys]
    simp
  | .null, .bool _ => by simp [Json.beq]
  | .null, .num _ => by simp [Json.beq]
  | .null, .str _ => by simp [Json.beq]
  | .null, .arr _ => by simp [Json.beq]
  | .null, .obj _ => by simp [Json.beq]
  | .bool _, .null => by simp [Json.beq]
  | .bool _, .num _ => by simp [Json.beq]
  | .bool _, .str _ => by simp [Json.beq]
  | .bool _, .arr _ => by simp [Json.beq]
  | .bool _, .obj _ => by simp [Json.beq]
  | .num _, .null => by simp [Json.beq]
  | .num _, .bool _ => by simp [Json.beq]
  | .num _, .str _ => by simp [Json.beq]
  | .num _, .arr _ => by simp [Json.beq]
  | .num _, .obj _ => by simp [Json.beq]
  | .str _, .null => by simp [Json.beq]
  | .str _, .bool _ => by simp [Json.beq]
  | .str _, .num _ => by simp [Json.beq]
  | .str _, .arr _ => by simp [Json.beq]
  | .str _, .obj _ => by simp [Json.beq]
  | .arr _, .null => by simp [Json.beq]
  | .arr _, .bool _ => by simp [Json.beq]
  | .arr _, .num _ => by simp [Json.beq]
  | .arr _, .str _ => by simp [Json.beq]
  | .arr _, .obj _ => by simp [Json.beq]
  | .obj _, .null => by simp [Json.beq]
  | .obj _, .bool _ => by simp [Json.beq]
  | .obj _, .num _ => by simp [Json.beq]
  | .obj _, .str _ => by simp [Json.beq]
  | .obj _, .arr _ => by simp [Json.beq]

/-- Array equality on `Json` decides propositional equality. -/
theorem Json.beqList_iff : ∀ xs ys : List Json, Json.beqList xs ys = true ↔ xs = ys
  | [], [] => by simp [Json.beqList]
  | x :: xs, y :: ys => by
    simp only [Json.beqList, Bool.and_eq_true]
    rw [Json.beq_iff x y, Json.beqList_iff xs ys]
    simp
  | [], _ :: _ => by simp [Json.beqList]
  | _ :: _, [] => by simp [Json.beqList]

/-- Field-list equality on `Json` decides propositional equality. -/
theorem Json.beqObj_iff : ∀ xs ys : List (String × Json), Json.beqObj xs ys = true ↔ xs = ys
  | [], [] => by simp [Json.beqObj]
  | (k1, v1) :: xs, (k2, v2) :: ys => by
    simp only [Json.beqObj, Bool.and_eq_true]
    rw [Json.beq_iff v1 v2, Json.beqObj_iff xs ys]
    constructor
    · rintro ⟨⟨hk, hv⟩, ht⟩
      simp_all [beq_iff_eq]
    · rintro h
      injection h with h1 h2
      injection h1
      simp_all
  | [], _ :: _ => by simp [Json.beqObj]
  | _ :: _, [] => by simp [Json.beqObj]

end

instance : DecidableEq Json := fun a b =>
  decidable_of_iff (Json.beq a b = true) (Json.beq_iff a b)

/-- Index into a JSON value (model of `serde_json::Value::index`): on an
object it looks the key up, defaulting to `Null`; on anything else it is
`Null`. -/
def jGet (j : Json) (k : String) : Json :=
  match j with
  | .obj fs => ((fs.find? (fun p => p.1 = k)).map (fun p => p.2)).getD .null
  | _ => .null

/-- Optional lookup (model of `serde_json::Value::get`): `none` when the
value is not an object or the key is absent. -/
def jGetOpt (j : Json) (k : String) : Option Json :=
  match j with
  | .obj fs => (fs.find? (fun p => p.1 = k)).map (fun p => p.2)
  | _ => none

/-- Model of `Value::as_str`. -/
def Json.asStr : Json → Option String
  | .str s => some s
  | _ => none

/-- Model of `Value::as_i64` (model numbers are exactly the integers). -/
def Json.asInt : Json → Option Int
  | .num n => some n
  | _ => none

/-- Model of `Value::as_bool`. -/
def Json.asBool : Json → Option Bool
  | .bool b => some b
  | _ => none

/-- Model of `Value::is_boolean`. -/
def Json.isBool : Json → Bool
  | .bool _ => true
  | _ => false

/-- Keys of a JSON object, in order (empty for non-objects). -/
def jsonObjKeys : Json → List String
  | .obj fs => fs.map (fun p => p.1)
  | _ => []

/-- Effectful map over a list in the `Option` monad (first failure wins),
used to model serde's element-by-element decoding of sequences. -/
def optionMapM {α β : Type} (f : α → Option β) : List α → Option (List β)
  | [] => some []
  | a :: l => (f a).bind (fun b => (optionMapM f l).map (fun bs => b :: bs))

/-- Effectful map over a list in the `Except` monad (first failure wins),
used to model Rust's early-return row loops. -/
def exceptMapM {α β : Type} (f : α → Except AppError β) : List α → Except AppError (List β)
  | [] => .ok []
  | a :: l => do
    let b ← f a
    let bs ← exceptMapM f l
    pure (b :: bs)

/-! ## SHA-256

Executable SHA-256 (FIPS 180-4) over byte lists, used by
`Delta::calculate_checksum` and `Snapshot::calculate_checksum`.  Words
are `Nat` values reduced modulo `2^32`. -/

/-- The constant `2^32`. -/
def w32 : Nat := 4294967296

/-- Right rotation of a 32-bit word. -/
def rotr32 (x n : Nat) : Nat :=
  (x >>> n) ||| ((x <<< (32 - n)) % w32)

/-- SHA-256 Σ₀. -/
def shaBigSigma0 (x : Nat) : Nat := (rotr32 x 2) ^^^ (rotr32 x 13) ^^^ (rotr32 x 22)

/-- SHA-256 Σ₁. -/
def shaBigSigma1 (x : Nat) : Nat := (rotr32 x 6) ^^^ (rotr32 x 11) ^^^ (rotr32 x 25)

/-- SHA-256 σ₀. -/
def shaSmallSigma0 (x : Nat) : Nat := (rotr32 x 7) ^^^ (rotr32 x 18) ^^^ (x >>> 3)

/-- SHA-256 σ₁. -/
def shaSmallSigma1 (x : Nat) : Nat := (rotr32 x 17) ^^^ (rotr32 x 19) ^^^ (x >>> 10)

/-- SHA-256 choose function. -/
def shaCh (x y z : Nat) : Nat := (x &&& y) ^^^ ((x ^^^ 4294967295) &&& z)

/-- SHA-256 majority function. -/
def shaMaj (x y z : Nat) : Nat := (x &&& y) ^^^ (x &&& z) ^^^ (y &&& z)

/-- SHA-256 round constants. -/
def shaK : List Nat :=
  [1116352408, 1899447441, 3049323471, 3921009573, 961987163, 1508970993,
   2453635748, 2870763221, 3624381080, 310598401, 607225278, 1426881987,
   1925078388, 2162078206, 2614888103, 3248222580, 3835390401, 4022224774,
   264347078, 604807628, 770255983, 1249150122, 1555081692, 1996064986,
   2554220882, 2821834349, 2952996808, 3210313671, 3336571891, 3584528711,
   113926993, 338241895, 666307205, 773529912, 1294757372, 1396182291,
   1695183700, 1986661051, 2177026350, 2456956037, 2730485921, 2820302411,
   3259730800, 3345764771, 3516065817, 3600352804, 4094571909, 275423344,
   430227734, 506948616, 659060556, 883997877, 958139571, 1322822218,
   1537002063, 1747873779, 1955562222, 2024104815, 2227730452, 2361852424,
   2428436474, 2756734187, 3204031479, 3329325298]

/-- Big-endian byte rendering of a number on a fixed width. -/
def beBytes : Nat → Nat → List Nat
  | 0, _ => []
  | k + 1, n => beBytes k (n >>> 8) ++ [n % 256]

/-- SHA-256 message padding. -/
def padMessage (msg : List Nat) : List Nat :=
  let l := msg.length
  let zeros := (64 - ((l + 9) % 64)) % 64
  msg ++ [0x80] ++ List.replicate zeros 0 ++ beBytes 8 (8 * l)

/-- Split a byte list into 64-byte blocks; the fuel is an upper bound on
the number of blocks times 64. -/
def chunks64 : Nat → List Nat → List (List Nat)
  | 0, _ => []
  | _ + 1, [] => []
  | fuel + 1, l => l.take 64 :: chunks64 fuel (l.drop 64)

/-- Big-endian 32-bit words of a byte list. -/
def bytesToWords : List Nat → List Nat
  | b0 :: b1 :: b2 :: b3 :: rest => (((b0 * 256 + b1) * 256 + b2) * 256 + b3) :: bytesToWords rest
  | _ => []

/-- One step of the SHA-256 message schedule extension. -/
def scheduleStep (acc : List Nat) : Nat :=
  let n := acc.length
  (acc.getD (n - 16) 0 + shaSmallSigma0 (acc.getD (n - 15) 0) +
   acc.getD (n - 7) 0 + shaSmallSigma1 (acc.getD (n - 2) 0)) % w32

/-- Extend the message schedule by the given number of words. -/
def schedule : Nat → List Nat → List Nat
  | 0, acc => acc
  | k + 1, acc => schedule k (acc ++ [scheduleStep acc])

/-- Working state of the SHA-256 compression function. -/
structure ShaState where
  a : Nat
  b : Nat
  c : Nat
  d : Nat
  e : Nat
  f : Nat
  g : Nat
  h : Nat

/-- One SHA-256 compression round. -/
def shaRound (st : ShaState) (kw : Nat × Nat) : ShaState :=
  let t1 := (st.h + shaBigSigma1 st.e + shaCh st.e st.f st.g + kw.1 + kw.2) % w32
  let t2 := (shaBigSigma0 st.a + shaMaj st.a st.b st.c) % w32
  { a := (t1 + t2) % w32, b := st.a, c := st.b, d := st.c,
    e := (st.d + t1) % w32, f := st.e, g := st.f, h := st.g }

/-- Process one 64-byte block. -/
def processBlock (hs : List Nat) (block : List Nat) : List Nat :=
  let ws := schedule 48 (bytesToWords block)
  let init : ShaState :=
    { a := hs.getD 0 0, b := hs.getD 1 0, c := hs.getD 2 0, d := hs.getD 3 0,
      e := hs.getD 4 0, f := hs.getD 5 0, g := hs.getD 6 0, h := hs.getD 7 0 }
  let fin := (shaK.zip ws).foldl shaRound init
  [(hs.getD 0 0 + fin.a) % w32, (hs.getD 1 0 + fin.b) % w32, (hs.getD 2 0 + fin.c) % w32,
   (hs.getD 3 0 + fin.d) % w32, (hs.getD 4 0 + fin.e) % w32, (hs.getD 5 0 + fin.f) % w32,
   (hs.getD 6 0 + fin.g) % w32, (hs.getD 7 0 + fin.h) % w32]

/-- SHA-256 initial hash values. -/
def shaH0 : List Nat :=
  [1779033703, 3144134277, 1013904242, 2773480762,
   1359893119, 2600822924, 528734635, 1541459225]

/-- Lowercase hexadecimal digit. -/
def hexDigitChar (n : Nat) : Char :=
  if n < 10 then Char.ofNat (48 + n) else Char.ofNat (87 + n)

/-- Lowercase hexadecimal rendering of a 32-bit word. -/
def wordHex (x : Nat) : List Char :=
  [hexDigitChar ((x >>> 28) % 16), hexDigitChar ((x >>> 24) % 16), hexDigitChar ((x >>> 20) % 16),
   hexDigitChar ((x >>> 16) % 16), hexDigitChar ((x >>> 12) % 16), hexDigitChar ((x >>> 8) % 16),
   hexDigitChar ((x >>> 4) % 16), hexDigitChar (x % 16)]

/-- SHA-256 of a byte list, rendered as 64 lowercase hex characters
(model of `format!("{:x}", hasher.finalize())` over the `sha2` crate). -/
def sha256Hex (msg : List Nat) : String :=
  let padded := padMessage msg
  let blocks := chunks64 padded.length padded
  let hs := blocks.foldl processBlock shaH0
  ⟨(hs.map wordHex).flatten⟩

/-- UTF-8 encoding of a string as a byte list (model of `str::as_bytes`;
Rust strings are UTF-8). -/
def utf8Encode (s : String) : List Nat :=
  s.data.foldl (fun acc c =>
    let n := c.toNat
    acc ++ (if n < 0x80 then [n]
      else if n < 0x800 then [0xC0 + (n >>> 6), 0x80 + (n % 64)]
      else if n < 0x10000 then [0xE0 + (n >>> 12), 0x80 + ((n >>> 6) % 64), 0x80 + (n % 64)]
      else [0xF0 + (n >>> 18), 0x80 + ((n >>> 12) % 64), 0x80 + ((n >>> 6) % 64), 0x80 + (n % 64)])) []

/-! ## Compact JSON rendering

Model of `serde_json::to_string` on `Json` values: compact separators,
struct fields in declaration order, strings escaped as `serde_json` does
(quote, backslash, and control characters). -/

/-- Escape one character as `serde_json` renders string contents. -/
def jsonEscapeChar (c : Char) : List Char :=
  if c = '"' then ['\\', '"']
  else if c = '\\' then ['\\', '\\']
  else if c.toNat = 8 then ['\\', 'b']
  else if c.toNat = 9 then ['\\', 't']
  else if c.toNat = 10 then ['\\', 'n']
  else if c.toNat = 12 then ['\\', 'f']
  else if c.toNat = 13 then ['\\', 'r']
  else if c.toNat < 32 then ['\\', 'u', '0', '0', hexDigitChar (c.toNat >>> 4), hexDigitChar (c.toNat % 16)]
  else [c]

/-- Escape a full string for JSON output. -/
def jsonEscape (s : String) : String :=
  ⟨(s.data.map jsonEscapeChar).flatten⟩

mutual

/-- Compact JSON rendering of a value. -/
def Json.render : Json → String
  | .null => "null"
  | .bool true => "true"
  | .bool false => "false"
  | .num n => intToDecString n
  | .str s => "\"" ++ jsonEscape s ++ "\""
  | .arr xs => "[" ++ Json.renderList xs ++ "]"
  | .obj fs => "\x7b" ++ Json.renderObj fs ++ "\x7d"

/-- Comma-joined rendering of array elements. -/
def Json.renderList : List Json → String
  | [] => ""
  | [x] => Json.render x
  | x :: y :: tl => Json.render x ++ "," ++ Json.renderList (y :: tl)

/-- Comma-joined rendering of object fields. -/
def Json.renderObj : List (String × Json) → String
  | [] => ""
  | [(k, v)] => "\"" ++ jsonEscape k ++ "\":" ++ Json.render v
  | (k, v) :: p :: tl => "\"" ++ jsonEscape k ++ "\":" ++ Json.render v ++ "," ++ Json.renderObj (p :: tl)

end

/-! ## Application errors

Model of `src-tauri/src/error.rs` (the variants the synchronization
claims exercise; each carries its message payload). -/

/-- Error type (model of `AppError` in `error.rs`). -/
inductive AppError where
  | Db (msg : String) : AppError
  | Validation (msg : String) : AppError
  | Sync (msg : String) : AppError
deriving DecidableEq, Repr

/-- Stable string code of an error (model of `AppError::code`). -/
def AppError.code : AppError → String
  | .Db _ => "DB_ERROR"
  | .Validation _ => "VALIDATION_ERROR"
  | .Sync _ => "SYNC_ERROR"

/-- Message payload of an error. -/
def AppError.msg : AppError → String
  | .Db m => m
  | .Validation m => m
  | .Sync m => m

instance {ε α : Type} [DecidableEq ε] [DecidableEq α] : DecidableEq (Except ε α) := fun a b =>
  match a, b with
  | .ok x, .ok y =>
    if h : x = y then .isTrue (by rw [h])
    else .isFalse (by intro hc; injection hc; contradiction)
  | .error x, .error y =>
    if h : x = y then .isTrue (by rw [h])
    else .isFalse (by intro hc; injection hc; contradiction)
  | .ok _, .error _ => .isFalse (by intro hc; injection hc)
  | .error _, .ok _ => .isFalse (by intro hc; injection hc)

/-! ## Vector clocks

Model of `src-tauri/src/sync/vector_clock.rs`.  The Rust
`HashMap<String, i64>` is an association list here; `vcGet` is
`clocks.get(device).unwrap_or(&0)`. -/

/-- Vector clock: per-device counters (model of `VectorClock`). -/
structure VectorClock where
  clocks : List (String × Int)
deriving DecidableEq, Repr

namespace VectorClock

/-- Model of `VectorClock::new`: seeds the device's counter at `0`. -/
def new (device_id : String) : VectorClock :=
  ⟨[(device_id, 0)]⟩

/-- Model of `VectorClock::empty`. -/
def empty : VectorClock :=
  ⟨[]⟩

/-- Counter of a device, `0` when absent (`clocks.get(d).unwrap_or(&0)`). -/
def get0 (vc : VectorClock) (device : String) : Int :=
  (getAssoc vc.clocks device).getD 0

/-- Model of `VectorClock::merge`: per-device maximum, union of keys. -/
def merge (vc other : VectorClock) : VectorClock :=
  ⟨other.clocks.foldl
    (fun acc p => setAssoc acc p.1 (max ((getAssoc acc p.1).getD 0) p.2)) vc.clocks⟩

/-- Model of `VectorClock::happened_before`.  The first loop requires every
counter of `self` to be at most the matching counter of `other` and flags
a strictly smaller one; the second loop flags any device known only to
`other`. -/
def happened_before (vc other : VectorClock) : Bool :=
  let all_less_or_equal := vc.clocks.all (fun p => p.2 ≤ other.get0 p.1)
  let at_least_one_less :=
    vc.clocks.any (fun p => p.2 < other.get0 p.1) ||
    other.clocks.any (fun p => ¬ vc.clocks.any (fun q => q.1 = p.1))
  all_less_or_equal && at_least_one_less

/-- Model of `VectorClock::conflicts_with`: both sides hold an update the
other has not seen (the iteration ranges over the union of the devices of
the two clocks). -/
def conflicts_with (vc other : VectorClock) : Bool :=
  let all_devices := vc.clocks.map (fun p => p.1) ++ other.clocks.map (fun p => p.1)
  let self_greater := all_devices.any (fun d => other.get0 d < vc.get0 d)
  let other_greater := all_devices.any (fun d => vc.get0 d < other.get0 d)
  self_greater && other_greater

/-- Model of `VectorClock::sum`. -/
def sum (vc : VectorClock) : Int :=
  (vc.clocks.map (fun p => p.2)).sum

end VectorClock

/-! ## Project status machine

Model of `src-tauri/src/domain/status.rs`. -/

/-- Project status (model of `ProjectStatus`). -/
inductive ProjectStatus where
  | Backlog | Planned | InProgress | Blocked | Done | Archived
deriving DecidableEq, Repr, Fintype

namespace StatusMachine

/-- Model of `StatusMachine::can_transition` (`from = none` is the
initial creation). -/
def can_transition (from_st : Option ProjectStatus) (to_st : ProjectStatus) : Bool :=
  match from_st, to_st with
  | none, .Backlog => true
  | some .Backlog, .Planned | some .Backlog, .Archived => true
  | some .Planned, .InProgress | some .Planned, .Archived => true
  | some .InProgress, .Blocked | some .InProgress, .Done => true
  | some .Blocked, .InProgress => true
  | some .Done, .Archived | some .Done, .InProgress => true
  | some .Archived, .Backlog => true
  | _, _ => false

/-- Model of `StatusMachine::note_required`. -/
def note_required (from_st : Option ProjectStatus) (to_st : ProjectStatus) : Bool :=
  match from_st, to_st with
  | some .Archived, .Backlog => true
  | some .Done, .InProgress => true
  | some .Backlog, .Archived => true
  | some .Planned, .Archived => true
  | _, _ => false

end StatusMachine

/-! ## Delta codec

Model of the data types and codec of `src-tauri/src/sync/delta_sync.rs`.
`Delta::compress` is `gzip(serde_json::to_string(delta))` in Rust; gzip
round-trips all byte strings and `to_string`/`from_str` round-trip between
a JSON value and its text, so compression is modelled at the JSON-value
layer: `compress` is the serde encoding of the delta and `decompress` is
the serde decoding, which is exactly where deltas can fail to round-trip. -/

/-- Operation kind (model of `OperationType`). -/
inductive OperationType where
  | Insert | Update | Delete
deriving DecidableEq, Repr

/-- One replicated row operation (model of `Operation`). -/
structure Operation where
  table_name : String
  record_id : String
  op_type : OperationType
  data : Option Json
  version : Int
deriving DecidableEq, Repr

/-- A batch of operations with origin metadata (model of `Delta`). -/
structure Delta where
  id : Int
  operations : List Operation
  device_id : String
  vector_clock : VectorClock
  created_at : String
  checksum : String
deriving DecidableEq, Repr

/-- Serde encoding of `OperationType` (externally tagged unit variant:
just the variant name). -/
def encodeOperationType : OperationType → Json
  | .Insert => .str "Insert"
  | .Update => .str "Update"
  | .Delete => .str "Delete"

/-- Serde decoding of `OperationType`. -/
def decodeOperationType : Json → Option OperationType
  | .str "Insert" => some .Insert
  | .str "Update" => some .Update
  | .str "Delete" => some .Delete
  | _ => none

/-- Serde encoding of an `Operation` (derived `Serialize`: fields in
declaration order; `Option<Value>` renders `None` as `null` and `Some v`
as `v` itself). -/
def encodeOperation (op : Operation) : Json :=
  .obj [("table_name", .str op.table_name),
        ("record_id", .str op.record_id),
        ("op_type", encodeOperationType op.op_type),
        ("data", match op.data with | some v => v | none => .null),
        ("version", .num op.version)]

/-- Serde decoding of an `Operation` (derived `Deserialize`: required
fields looked up by name; an `Option` field decodes `null` — and absence —
to `None`, so `Some Null` is not reachable by decoding). -/
def decodeOperation (j : Json) : Option Operation := do
  let t ← (jGetOpt j "table_name").bind Json.asStr
  let r ← (jGetOpt j "record_id").bind Json.asStr
  let ot ← (jGetOpt j "op_type").bind decodeOperationType
  let data : Option Json :=
    match jGetOpt j "data" with
    | none => none
    | some .null => none
    | some v => some v
  let v ← (jGetOpt j "version").bind Json.asInt
  pure { table_name := t, record_id := r, op_type := ot, data := data, version := v }

/-- Serde encoding of a `VectorClock`. -/
def encodeVectorClock (vc : VectorClock) : Json :=
  .obj [("clocks", .obj (vc.clocks.map (fun p => (p.1, .num p.2))))]

/-- Serde decoding of a `VectorClock`. -/
def decodeVectorClock (j : Json) : Option VectorClock := do
  let cj ← jGetOpt j "clocks"
  match cj with
  | .obj fs =>
    let cs ← optionMapM (fun p => (p.2.asInt).map (fun n => (p.1, n))) fs
    pure ⟨cs⟩
  | _ => none

/-- Serde encoding of a `Delta`. -/
def encodeDelta (d : Delta) : Json :=
  .obj [("id", .num d.id),
        ("operations", .arr (d.operations.map encodeOperation)),
        ("device_id", .str d.device_id),
        ("vector_clock", encodeVectorClock d.vector_clock),
        ("created_at", .str d.created_at),
        ("checksum", .str d.checksum)]

/-- Serde decoding of a `Delta`. -/
def decodeDelta (j : Json) : Option Delta := do
  let i ← (jGetOpt j "id").bind Json.asInt
  let opsJ ← jGetOpt j "operations"
  let ops ← match opsJ with
    | .arr xs => optionMapM decodeOperation xs
    | _ => none
  let dev ← (jGetOpt j "device_id").bind Json.asStr
  let vcJ ← jGetOpt j "vector_clock"
  let vc ← decodeVectorClock vcJ
  let ca ← (jGetOpt j "created_at").bind Json.asStr
  let ck ← (jGetOpt j "checksum").bind Json.asStr
  pure { id := i, operations := ops, device_id := dev, vector_clock := vc,
         created_at := ca, checksum := ck }

namespace Delta

/-- Model of `Delta::calculate_checksum`: SHA-256 over the serde JSON
text of the operation list, rendered as lowercase hex. -/
def calculate_checksum (operations : List Operation) : String :=
  sha256Hex (utf8Encode (Json.render (.arr (operations.map encodeOperation))))

/-- Model of `Delta::compress` at the JSON-value layer (serialization
followed by lossless gzip). -/
def compress (d : Delta) : Json :=
  encodeDelta d

/-- Model of `Delta::decompress` at the JSON-value layer (lossless gzip
inversion followed by deserialization; a value that does not decode as a
`Delta` is the serde error path). -/
def decompress (blob : Json) : Except AppError Delta :=
  match decodeDelta blob with
  | some d => .ok d
  | none => .error (.Db "Deserialize delta failed")

end Delta

/-! ## Business tables

Row structures mirror exactly the column lists of the `INSERT OR
REPLACE` statements in `delta_sync.rs` (`upsert_project`, `upsert_person`,
…).  Columns bound from `data["…"].as_str()` / `as_i64()` are `Option`s —
a missing or differently-typed field binds SQL `NULL`. -/

/-- Row of `projects` as written by `upsert_project`. -/
structure ProjectRow where
  id : Option String
  name : Option String
  description : Option String
  priority : Option Int
  current_status : Option String
  country_code : Option String
  partner_id : Option String
  owner_person_id : Option String
  start_date : Option String
  due_date : Option String
  created_at : Option String
  updated_at : Option String
  archived_at : Option String
  version : Int
deriving DecidableEq, Repr

/-- Row of `persons` as written by `upsert_person`. -/
structure PersonRow where
  id : Option String
  display_name : Option String
  email : Option String
  role : Option String
  note : Option String
  is_active : Option Int
  created_at : Option String
  updated_at : Option String
  version : Int
deriving DecidableEq, Repr

/-- Row of `partners` as written by `upsert_partner`. -/
structure PartnerRow where
  id : Option String
  name : Option String
  note : Option String
  is_active : Option Int
  created_at : Option String
  updated_at : Option String
  version : Int
deriving DecidableEq, Repr

/-- Row of `assignments` as written by `upsert_assignment`. -/
structure AssignmentRow where
  id : Option String
  project_id : Option String
  person_id : Option String
  role : Option String
  start_at : Option String
  end_at : Option String
  created_at : Option String
  version : Int
deriving DecidableEq, Repr

/-- Row of `status_history` as written by `upsert_status_history`. -/
structure StatusHistoryRow where
  id : Option String
  project_id : Option String
  from_status : Option String
  to_status : Option String
  changed_at : Option String
  changed_by_person_id : Option String
  note : Option String
  version : Int
deriving DecidableEq, Repr

/-- Row of `project_tags` (composite key, no `_version`). -/
structure ProjectTagRow where
  project_id : Option String
  tag : Option String
  created_at : Option String
deriving DecidableEq, Repr

/-- Row of `project_comments` as written by `upsert_project_comment`. -/
structure ProjectCommentRow where
  id : Option String
  project_id : Option String
  person_id : Option String
  content : Option String
  is_pinned : Int
  created_at : Option String
  updated_at : Option String
  version : Int
deriving DecidableEq, Repr

/-- The business tables (model of the SQLite store the delta engine
writes). -/
structure Db where
  projects : List ProjectRow
  persons : List PersonRow
  partners : List PartnerRow
  assignments : List AssignmentRow
  status_history : List StatusHistoryRow
  project_tags : List ProjectTagRow
  project_comments : List ProjectCommentRow
deriving DecidableEq, Repr

/-- The empty store. -/
def Db.empty : Db :=
  { projects := [], persons := [], partners := [], assignments := [],
    status_history := [], project_tags := [], project_comments := [] }

/-- `INSERT OR REPLACE` keyed on a single-column primary key: conflicting
rows (same non-NULL key) are removed, then the new row is appended.  A
`NULL` key never conflicts in SQLite, so such a row is plainly appended. -/
def upsertByKey {α : Type} (key : α → Option String) (rows : List α) (r : α) : List α :=
  match key r with
  | none => rows ++ [r]
  | some i => rows.filter (fun x => key x ≠ some i) ++ [r]

/-- First row with the given single-column primary key (model of
`SELECT ... WHERE id = ?1`; SQL equality never matches `NULL`). -/
def findByKey {α : Type} (key : α → Option String) (rows : List α) (k : String) : Option α :=
  rows.find? (fun r => key r = some k)

/-- Extraction of a `ProjectRow` from an operation's post-image, exactly
as `upsert_project` binds its SQL parameters. -/
def projectFromJson (data : Json) (version : Int) : ProjectRow :=
  { id := (jGet data "id").asStr,
    name := (jGet data "name").asStr,
    description := (jGet data "description").asStr,
    priority := (jGet data "priority").asInt,
    current_status := (jGet data "current_status").asStr,
    country_code := (jGet data "country_code").asStr,
    partner_id := (jGet data "partner_id").asStr,
    owner_person_id := (jGet data "owner_person_id").asStr,
    start_date := (jGet data "start_date").asStr,
    due_date := (jGet data "due_date").asStr,
    created_at := (jGet data "created_at").asStr,
    updated_at := (jGet data "updated_at").asStr,
    archived_at := (jGet data "archived_at").asStr,
    version := version }

/-- Extraction of a `PersonRow`, as `upsert_person` binds parameters. -/
def personFromJson (data : Json) (version : Int) : PersonRow :=
  { id := (jGet data "id").asStr,
    display_name := (jGet data "display_name").asStr,
    email := (jGet data "email").asStr,
    role := (jGet data "role").asStr,
    note := (jGet data "note").asStr,
    is_active := (jGet data "is_active").asInt,
    created_at := (jGet data "created_at").asStr,
    updated_at := (jGet data "updated_at").asStr,
    version := version }

/-- Extraction of a `PartnerRow`, as `upsert_partner` binds parameters. -/
def partnerFromJson (data : Json) (version : Int) : PartnerRow :=
  { id := (jGet data "id").asStr,
    name := (jGet data "name").asStr,
    note := (jGet data "note").asStr,
    is_active := (jGet data "is_active").asInt,
    created_at := (jGet data "created_at").asStr,
    updated_at := (jGet data "updated_at").asStr,
    version := version }

/-- Extraction of an `AssignmentRow`, as `upsert_assignment` binds
parameters. -/
def assignmentFromJson (data : Json) (version : Int) : AssignmentRow :=
  { id := (jGet data "id").asStr,
    project_id := (jGet data "project_id").asStr,
    person_id := (jGet data "person_id").asStr,
    role := (jGet data "role").asStr,
    start_at := (jGet data "start_at").asStr,
    end_at := (jGet data "end_at").asStr,
    created_at := (jGet data "created_at").asStr,
    version := version }

/-- Extraction of a `StatusHistoryRow`, as `upsert_status_history` binds
parameters. -/
def statusHistoryFromJson (data : Json) (version : Int) : StatusHistoryRow :=
  { id := (jGet data "id").asStr,
    project_id := (jGet data "project_id").asStr,
    from_status := (jGet data "from_status").asStr,
    to_status := (jGet data "to_status").asStr,
    changed_at := (jGet data "changed_at").asStr,
    changed_by_person_id := (jGet data "changed_by_person_id").asStr,
    note := (jGet data "note").asStr,
    version := version }

/-- Extraction of a `ProjectTagRow`, as `upsert_project_tag` binds
parameters (no version column). -/
def projectTagFromJson (data : Json) : ProjectTagRow :=
  { project_id := (jGet data "project_id").asStr,
    tag := (jGet data "tag").asStr,
    created_at := (jGet data "created_at").asStr }

/-- Extraction of a `ProjectCommentRow`, as `upsert_project_comment`
binds parameters: `person_id` uses `data.get(..)` + `as_str`, and
`is_pinned` accepts a boolean (as 0/1) or an integer, defaulting to 0. -/
def projectCommentFromJson (data : Json) (version : Int) : ProjectCommentRow :=
  { id := (jGet data "id").asStr,
    project_id := (jGet data "project_id").asStr,
    person_id := ((jGetOpt data "person_id").bind Json.asStr),
    content := (jGet data "content").asStr,
    is_pinned :=
      if (jGet data "is_pinned").isBool then
        (if ((jGet data "is_pinned").asBool).getD false then 1 else 0)
      else ((jGet data "is_pinned").asInt).getD 0,
    created_at := (jGet data "created_at").asStr,
    updated_at := (jGet data "updated_at").asStr,
    version := version }

/-- Table dispatch of the `INSERT OR REPLACE` writes (`match table` in
`apply_upsert`); an unknown table is logged and skipped. -/
def upsertDispatch (db : Db) (table : String) (data : Json) (version : Int) : Db :=
  if table = "projects" then
    { db with projects := upsertByKey ProjectRow.id db.projects (projectFromJson data version) }
  else if table = "persons" then
    { db with persons := upsertByKey PersonRow.id db.persons (personFromJson data version) }
  else if table = "partners" then
    { db with partners := upsertByKey PartnerRow.id db.partners (partnerFromJson data version) }
  else if table = "assignments" then
    { db with assignments := upsertByKey AssignmentRow.id db.assignments (assignmentFromJson data version) }
  else if table = "status_history" then
    { db with status_history := upsertByKey StatusHistoryRow.id db.status_history (statusHistoryFromJson data version) }
  else if table = "project_tags" then
    { db with project_tags :=
        (let r := projectTagFromJson data
         match r.project_id, r.tag with
         | some pid, some tg =>
           db.project_tags.filter (fun x => ¬(x.project_id = some pid ∧ x.tag = some tg)) ++ [r]
         | _, _ => db.project_tags ++ [r]) }
  else if table = "project_comments" then
    { db with project_comments := upsertByKey ProjectCommentRow.id db.project_comments (projectCommentFromJson data version) }
  else db

/-- Tables whose rows carry `_version` (the `matches!` list in
`should_apply_upsert_lww`). -/
def versionedTables : List String :=
  ["projects", "persons", "partners", "assignments", "status_history", "project_comments"]

/-- Current local `_version` of a row (`SELECT _version FROM {table}
WHERE id = ?1`), `none` when the row does not exist or the table is not a
versioned business table. -/
def localVersion (db : Db) (table : String) (record_id : String) : Option Int :=
  if table = "projects" then (findByKey ProjectRow.id db.projects record_id).map ProjectRow.version
  else if table = "persons" then (findByKey PersonRow.id db.persons record_id).map PersonRow.version
  else if table = "partners" then (findByKey PartnerRow.id db.partners record_id).map PartnerRow.version
  else if table = "assignments" then (findByKey AssignmentRow.id db.assignments record_id).map AssignmentRow.version
  else if table = "status_history" then (findByKey StatusHistoryRow.id db.status_history record_id).map StatusHistoryRow.version
  else if table = "project_comments" then (findByKey ProjectCommentRow.id db.project_comments record_id).map ProjectCommentRow.version
  else none

/-- Model of `should_apply_upsert_lww`: `project_tags` and tables outside
the versioned list always apply; otherwise a remote version strictly
below the local `_version` is stale and is skipped, and a missing row
applies. -/
def should_apply_upsert_lww (db : Db) (table record_id : String) (remote_version : Int) : Bool :=
  if table = "project_tags" then true
  else if ¬ (table ∈ versionedTables) then true
  else
    match localVersion db table record_id with
    | some local_version => ¬ (remote_version < local_version)
    | none => true

/-- Model of `apply_upsert`.  The record-scoped vector-clock conflict
check in the Rust code only emits a log line ("remote wins") and does not
influence the state, so it has no counterpart here; the LWW guard then
either skips the stale operation or dispatches the table write. -/
def apply_upsert (db : Db) (table record_id : String) (data : Json) (version : Int) : Db :=
  if should_apply_upsert_lww db table record_id version then
    upsertDispatch db table data version
  else db

/-- Model of `parse_project_tag_record_id` (`split_once(':')`). -/
def parse_project_tag_record_id (record_id : String) : Except AppError (String × String) :=
  match splitOnceStr ':' record_id with
  | some p => .ok p
  | none => .error (.Validation ("Invalid project_tags record_id format: " ++ record_id))

/-- Model of `apply_delete`: `project_tags` deletes by composite key
parsed from the record id; every other business table deletes by `id`
(missing rows are a no-op); a table that does not exist in the schema is
a SQL error. -/
def apply_delete (db : Db) (table record_id : String) : Except AppError Db :=
  if table = "project_tags" then
    match parse_project_tag_record_id record_id with
    | .ok (pid, tg) =>
      .ok { db with project_tags :=
              db.project_tags.filter (fun x => ¬(x.project_id = some pid ∧ x.tag = some tg)) }
    | .error e => .error e
  else if table = "projects" then
    .ok { db with projects := db.projects.filter (fun x => x.id ≠ some record_id) }
  else if table = "persons" then
    .ok { db with persons := db.persons.filter (fun x => x.id ≠ some record_id) }
  else if table = "partners" then
    .ok { db with partners := db.partners.filter (fun x => x.id ≠ some record_id) }
  else if table = "assignments" then
    .ok { db with assignments := db.assignments.filter (fun x => x.id ≠ some record_id) }
  else if table = "status_history" then
    .ok { db with status_history := db.status_history.filter (fun x => x.id ≠ some record_id) }
  else if table = "project_comments" then
    .ok { db with project_comments := db.project_comments.filter (fun x => x.id ≠ some record_id) }
  else .error (.Db ("no such table: " ++ table))

/-- One operation of `apply_delta`'s loop: an `Insert`/`Update` with a
payload runs the guarded upsert, an `Insert`/`Update` without a payload
does nothing at all, and a `Delete` runs the delete. -/
def applyOperation (db : Db) (op : Operation) : Except AppError Db :=
  match op.op_type with
  | .Insert | .Update =>
    match op.data with
    | some data => .ok (apply_upsert db op.table_name op.record_id data op.version)
    | none => .ok db
  | .Delete => apply_delete db op.table_name op.record_id

/-- Global vector-clock rows (`vector_clocks` at scope
`('_global','_global')`), device id to counter. -/
abbrev VcStore : Type := List (String × Int)

/-- Model of `update_vector_clock`: each device entry of the remote clock
is written with `INSERT OR REPLACE` into the `_global` scope (note: a
plain replace, not a max-merge). -/
def update_vector_clock (vcs : VcStore) (remote : VectorClock) : VcStore :=
  remote.clocks.foldl (fun acc p => setAssoc acc p.1 p.2) vcs

/-- Model of `DeltaSyncEngine::apply_delta`: one transaction that applies
every operation in order and then writes the remote clock into the
`_global` vector-clock rows; any error rolls the whole transaction back
(the input state is simply not produced). -/
def apply_delta (db : Db) (vcs : VcStore) (delta : Delta) : Except AppError (Db × VcStore) := do
  let db' ← delta.operations.foldlM applyOperation db
  pure (db', update_vector_clock vcs delta.vector_clock)

/-! ## Change ledger (`sync_metadata`) and the delta engine around it -/

/-- One ledger row of `sync_metadata`.  `data_snapshot` is stored as JSON
text in SQLite; the model holds the parsed value, and a stored string
that does not parse is modelled as `none` (that is how
`collect_local_delta` treats it, via `.ok()`). -/
structure SyncMetaRow where
  id : Int
  table_name : String
  record_id : String
  operation : String
  data_snapshot : Option Json
  device_id : String
  version : Int
  created_at : String
  synced : Bool
deriving DecidableEq, Repr

/-- SQL operation tag of an `OperationType` (model of
`operation_type_to_sql_name`). -/
def operation_type_to_sql_name : OperationType → String
  | .Insert => "INSERT"
  | .Update => "UPDATE"
  | .Delete => "DELETE"

/-- Ledger-to-operation translation used by `collect_local_delta`:
unknown operation strings fall back to `Update`. -/
def operationOfMetaRow (r : SyncMetaRow) : Operation :=
  { table_name := r.table_name,
    record_id := r.record_id,
    op_type :=
      if r.operation = "INSERT" then .Insert
      else if r.operation = "UPDATE" then .Update
      else if r.operation = "DELETE" then .Delete
      else .Update,
    data := r.data_snapshot,
    version := r.version }

/-- Ascending-id ordering of ledger rows (`ORDER BY id ASC`). -/
def metaRowLE (a b : SyncMetaRow) : Prop := a.id ≤ b.id

instance : DecidableRel metaRowLE := fun a b => Int.decLe a.id b.id

instance : IsTotal SyncMetaRow metaRowLE := ⟨fun a b => Int.le_total a.id b.id⟩

instance : IsTrans SyncMetaRow metaRowLE := ⟨fun _ _ _ h1 h2 => le_trans h1 h2⟩

/-- A collected local delta (model of `CollectedLocalDelta`). -/
structure CollectedLocalDelta where
  delta : Delta
  max_sync_meta_id : Option Int
deriving DecidableEq, Repr

/-- The full synchronization-relevant state of one device's SQLite
store: the configuration table, the ledger, the business tables and the
global vector-clock rows. -/
structure SyncDb where
  config : List (String × String)
  sync_metadata : List SyncMetaRow
  db : Db
  vector_clocks : List (String × Int)
deriving DecidableEq, Repr

/-- Model of `collect_local_delta`: the unsynced ledger rows in
ascending id order become operations; the current global vector clock and
the checksum are attached.  (The Rust query over `vector_clocks` reads
every scope into one map; the model keeps only the `_global` scope, which
is the one the pipeline maintains.) -/
def collect_local_delta (st : SyncDb) (device_id nowRfc : String) : CollectedLocalDelta :=
  let rows := List.insertionSort metaRowLE (st.sync_metadata.filter (fun r => ¬ r.synced))
  let operations := rows.map operationOfMetaRow
  let max_sync_meta_id := (rows.map SyncMetaRow.id).max?
  { delta :=
      { id := 0,
        operations := operations,
        device_id := device_id,
        vector_clock := ⟨st.vector_clocks⟩,
        created_at := nowRfc,
        checksum := Delta.calculate_checksum operations },
    max_sync_meta_id := max_sync_meta_id }

/-- Model of `mark_synced`: flip `synced` on every unsynced row with
`id ≤ up_to_id`. -/
def mark_synced (meta : List SyncMetaRow) (up_to_id : Int) : List SyncMetaRow :=
  meta.map (fun r => if r.id ≤ up_to_id ∧ ¬ r.synced then { r with synced := true } else r)

/-- Model of `current_max_sync_metadata_id` (`COALESCE(MAX(id), 0)`). -/
def current_max_sync_metadata_id (meta : List SyncMetaRow) : Int :=
  meta.foldl (fun m r => max m r.id) 0

/-- Model of `mark_remote_applied_operations_synced`: for each applied
operation, unsynced ledger rows newer than `min_exclusive_id` matching
`(table_name, record_id, operation, version)` are flipped to synced (the
Rust function also returns the number of updated rows, which no caller
uses for control flow). -/
def mark_remote_applied_operations_synced
    (meta : List SyncMetaRow) (min_exclusive_id : Int) (operations : List Operation) :
    List SyncMetaRow :=
  operations.foldl
    (fun acc op =>
      acc.map (fun r =>
        if r.id > min_exclusive_id ∧ ¬ r.synced ∧ r.table_name = op.table_name ∧
           r.record_id = op.record_id ∧ r.operation = operation_type_to_sql_name op.op_type ∧
           r.version = op.version
        then { r with synced := true } else r))
    meta

/-! ## JSON export

Model of `export_json_string` in `src-tauri/src/app/data_transfer.rs`
(the function `Snapshot::create` uses; the file `app/export.rs` contains
an older copy that is not part of the crate's module tree).  Column reads
into non-`Option` Rust types fail on SQL `NULL` (`InvalidColumnType`),
modelled by `reqStr`/`reqInt`.  The `ORDER BY` clauses of the row
queries only fix presentation order and are not reproduced; the nested
tag query's `ORDER BY tag` is kept. -/

/-- A column read into a non-optional Rust type: `NULL` is a row error. -/
def reqStr (v : Option String) : Except AppError String :=
  match v with
  | some s => .ok s
  | none => .error (.Db "InvalidColumnType")

/-- A column read into a non-optional integer type. -/
def reqInt (v : Option Int) : Except AppError Int :=
  match v with
  | some n => .ok n
  | none => .error (.Db "InvalidColumnType")

/-- Optional string column as JSON (serde `Option<String>`). -/
def optStrJson (v : Option String) : Json :=
  match v with
  | some s => .str s
  | none => .null

/-- Serialization of one person (serde `ExportPerson`, camelCase). -/
def exportPerson (r : PersonRow) : Except AppError Json := do
  let id ← reqStr r.id
  let display_name ← reqStr r.display_name
  let email ← reqStr r.email
  let role ← reqStr r.role
  let note ← reqStr r.note
  let is_active ← reqInt r.is_active
  let created_at ← reqStr r.created_at
  let updated_at ← reqStr r.updated_at
  pure (.obj [("id", .str id), ("displayName", .str display_name), ("email", .str email),
              ("role", .str role), ("note", .str note), ("isActive", .bool (is_active ≠ 0)),
              ("createdAt", .str created_at), ("updatedAt", .str updated_at)])

/-- Serialization of one partner (serde `ExportPartner`). -/
def exportPartner (r : PartnerRow) : Except AppError Json := do
  let id ← reqStr r.id
  let name ← reqStr r.name
  let note ← reqStr r.note
  let is_active ← reqInt r.is_active
  let created_at ← reqStr r.created_at
  let updated_at ← reqStr r.updated_at
  pure (.obj [("id", .str id), ("name", .str name), ("note", .str note),
              ("isActive", .bool (is_active ≠ 0)),
              ("createdAt", .str created_at), ("updatedAt", .str updated_at)])

/-- Serialization of one project with its tags (serde `ExportProject`;
tags come from `project_tags` rows for the project, `ORDER BY tag`, and
a `NULL` tag value is skipped by the `if let Ok(tag)` in the source). -/
def exportProject (tags : List ProjectTagRow) (r : ProjectRow) : Except AppError Json := do
  let id ← reqStr r.id
  let name ← reqStr r.name
  let description ← reqStr r.description
  let priority ← reqInt r.priority
  let current_status ← reqStr r.current_status
  let country_code ← reqStr r.country_code
  let partner_id ← reqStr r.partner_id
  let owner_person_id ← reqStr r.owner_person_id
  let created_at ← reqStr r.created_at
  let updated_at ← reqStr r.updated_at
  let tagList := List.insertionSort (fun a b => a ≤ b)
    ((tags.filter (fun t => t.project_id = some id)).filterMap (fun t => t.tag))
  pure (.obj [("id", .str id), ("name", .str name), ("description", .str description),
              ("priority", .num priority), ("currentStatus", .str current_status),
              ("countryCode", .str country_code), ("partnerId", .str partner_id),
              ("ownerPersonId", .str owner_person_id),
              ("startDate", optStrJson r.start_date), ("dueDate", optStrJson r.due_date),
              ("createdAt", .str created_at), ("updatedAt", .str updated_at),
              ("archivedAt", optStrJson r.archived_at),
              ("tags", .arr (tagList.map (fun t => .str t)))])

/-- Serialization of one assignment (serde `ExportAssignment`). -/
def exportAssignment (r : AssignmentRow) : Except AppError Json := do
  let id ← reqStr r.id
  let project_id ← reqStr r.project_id
  let person_id ← reqStr r.person_id
  let role ← reqStr r.role
  let start_at ← reqStr r.start_at
  let created_at ← reqStr r.created_at
  pure (.obj [("id", .str id), ("projectId", .str project_id), ("personId", .str person_id),
              ("role", .str role), ("startAt", .str start_at), ("endAt", optStrJson r.end_at),
              ("createdAt", .str created_at)])

/-- Serialization of one status-history entry (serde
`ExportStatusHistory`). -/
def exportStatusHistory (r : StatusHistoryRow) : Except AppError Json := do
  let id ← reqStr r.id
  let project_id ← reqStr r.project_id
  let to_status ← reqStr r.to_status
  let changed_at ← reqStr r.changed_at
  let note ← reqStr r.note
  pure (.obj [("id", .str id), ("projectId", .str project_id),
              ("fromStatus", optStrJson r.from_status), ("toStatus", .str to_status),
              ("changedAt", .str changed_at),
              ("changedByPersonId", optStrJson r.changed_by_person_id), ("note", .str note)])

/-- Serialization of one comment (serde `ExportComment`). -/
def exportComment (r : ProjectCommentRow) : Except AppError Json := do
  let id ← reqStr r.id
  let project_id ← reqStr r.project_id
  let content ← reqStr r.content
  let created_at ← reqStr r.created_at
  let updated_at ← reqStr r.updated_at
  pure (.obj [("id", .str id), ("projectId", .str project_id),
              ("personId", optStrJson r.person_id), ("content", .str content),
              ("isPinned", .bool (r.is_pinned ≠ 0)),
              ("createdAt", .str created_at), ("updatedAt", .str updated_at)])

/-- Model of `export_json_string`: the serde `ExportRoot` with camelCase
keys, `schemaVersion` 2 and the six business arrays (the serialized text
of this value is what Rust returns; `exportedAtRfc` stands for
`Utc::now().to_rfc3339()`). -/
def export_json_string (db : Db) (exportedAtRfc : String) : Except AppError Json := do
  let persons ← exceptMapM exportPerson db.persons
  let partners ← exceptMapM exportPartner db.partners
  let projects ← exceptMapM (exportProject db.project_tags) db.projects
  let assignments ← exceptMapM exportAssignment db.assignments
  let status_history ← exceptMapM exportStatusHistory db.status_history
  let comments ← exceptMapM exportComment db.project_comments
  pure (.obj [("schemaVersion", .num 2), ("exportedAt", .str exportedAtRfc),
              ("persons", .arr persons), ("partners", .arr partners),
              ("projects", .arr projects), ("assignments", .arr assignments),
              ("statusHistory", .arr status_history), ("comments", .arr comments)])

/-! ## Snapshots

Model of `src-tauri/src/sync/snapshot.rs`.  The Rust `Snapshot.data` is
the export JSON as a string; the model stores the JSON value (the string
is its rendering), and checksums hash the rendered text. -/

/-- Full-store snapshot (model of `Snapshot`; `data` holds the export
root value whose text Rust stores). -/
structure Snapshot where
  version : Int
  created_at : String
  device_id : String
  data : Json
  checksum : String
deriving DecidableEq, Repr

namespace Snapshot

/-- Model of `Snapshot::calculate_checksum`: SHA-256 of the serialized
export text, lowercase hex. -/
def calculate_checksum (data : Json) : String :=
  sha256Hex (utf8Encode (Json.render data))

/-- Model of `Snapshot::create`: export the store, hash it, stamp format
version 1. -/
def create (db : Db) (device_id nowRfc : String) : Except AppError Snapshot := do
  let data ← export_json_string db nowRfc
  pure { version := 1, created_at := nowRfc, device_id := device_id,
         data := data, checksum := calculate_checksum data }

/-- Model of `Snapshot::verify`. -/
def verify (s : Snapshot) : Bool :=
  calculate_checksum s.data = s.checksum

end Snapshot

/-- Model of `SnapshotManager::create_snapshot`: create then verify. -/
def snapshot_manager_create (db : Db) (device_id nowRfc : String) : Except AppError Snapshot := do
  let snap ← Snapshot.create db device_id nowRfc
  if snap.verify then pure snap
  else .error (.Db "Snapshot verification failed")

/-! ## Remote cursors and delta keys

Model of the helper functions of `src-tauri/src/commands/sync.rs`. -/

/-- Model of `remote_delta_cursor_key`. -/
def remote_delta_cursor_key (source_device_id : String) : String :=
  "last_remote_delta_ts::" ++ source_device_id

/-- Model of `get_remote_delta_cursor_timestamp`: read the config entry,
trim, parse as `i64`; an absent or unparseable value is `none`. -/
def get_remote_delta_cursor_timestamp (config : List (String × String)) (source_device_id : String) :
    Option Int :=
  (getAssoc config (remote_delta_cursor_key source_device_id)).bind (fun v => parseI64? (strTrim v))

/-- Model of `set_remote_delta_cursor_timestamp`: store the decimal
rendering under the per-source key. -/
def set_remote_delta_cursor_timestamp (config : List (String × String))
    (source_device_id : String) (timestamp : Int) : List (String × String) :=
  setAssoc config (remote_delta_cursor_key source_device_id) (intToDecString timestamp)

/-- Parsed remote delta object key (model of `RemoteDeltaObject`). -/
structure RemoteDeltaObject where
  key : String
  source_device_id : String
  timestamp : Int
deriving DecidableEq, Repr

/-- Model of `parse_remote_delta_object`: strip `deltas/`, split at the
first `/` into source device and file name, strip `delta-` and `.gz`,
take the segment before the first `-` (so both the legacy
`delta-<ts>.gz` and the new `delta-<ts>-<uuid>.gz` parse) and read it as
an `i64`. -/
def parse_remote_delta_object (key : String) : Option RemoteDeltaObject := do
  let rest ← stripPreStr "deltas/" key
  let (source_device_id, file_name) ← splitOnceStr '/' rest
  let noPre ← stripPreStr "delta-" file_name
  let core ← stripSufStr ".gz" noPre
  let ts_str := match splitOnceStr '-' core with
    | some p => p.1
    | none => core
  let timestamp ← parseI64? ts_str
  pure { key := key, source_device_id := source_device_id, timestamp := timestamp }

/-! ## Object store

The bucket is a key/value map; `upload` overwrites, `list` filters keys
by prefix, `download` looks a key up.  Stored delta blobs are the
JSON-value form of the compressed bytes (see the delta codec above);
snapshots are stored structurally (the pipeline never downloads them). -/

/-- One stored object. -/
inductive S3Object where
  | delta (blob : Json) : S3Object
  | snapshot (snap : Snapshot) : S3Object
deriving DecidableEq, Repr

/-- The shared bucket. -/
abbrev Bucket : Type := List (String × S3Object)

/-- Model of `S3SyncClient::list`: all keys with the given prefix. -/
def s3List (b : Bucket) (p : String) : List String :=
  (b.map (fun o => o.1)).filter (fun k => strStarts p k)

/-! ## The sync pipeline

Model of `sync_full_pipeline` in `src-tauri/src/commands/sync.rs`.  The
database commits each step separately, so a failing cycle keeps every
state change made before the failure: the model threads the state through
and reports the error alongside it instead of discarding it.  Transport
is modelled as reliable (an upload succeeds and a listed key downloads);
the verification/apply error paths are all modelled.  Timestamps and the
upload uuid are inputs (`now_ns` models
`Utc::now().timestamp_nanos_opt()`; `nowRfc` models
`Utc::now().to_rfc3339()`). -/

/-- Upload of the collected local delta, and the bootstrap snapshot when
there was nothing to upload and both `snapshots/` and `deltas/` listings
are empty (steps 1–4 of the pipeline). -/
def uploadAndBootstrap (device_id : String) (now_ns : Int) (uuid nowRfc : String)
    (st : SyncDb) (b : Bucket) : SyncDb × Bucket × Option AppError :=
  let collected := collect_local_delta st device_id nowRfc
  if collected.delta.operations = [] then
    if s3List b "snapshots/" = [] ∧ s3List b "deltas/" = [] then
      match snapshot_manager_create st.db device_id nowRfc with
      | .ok snap =>
        (st, setAssoc b ("snapshots/latest-" ++ device_id ++ ".gz") (.snapshot snap), none)
      | .error e => (st, b, some e)
    else (st, b, none)
  else
    let key := "deltas/" ++ device_id ++ "/delta-" ++ intToDecString now_ns ++ "-" ++ uuid ++ ".gz"
    let b' := setAssoc b key (.delta (Delta.compress collected.delta))
    let st' :=
      match collected.max_sync_meta_id with
      | some mid => { st with sync_metadata := mark_synced st.sync_metadata mid }
      | none => st
    (st', b', none)

/-- The pull filter (step 5): parse every key under `deltas/`, skip the
local device's own keys, and keep only keys whose timestamp is strictly
above the per-source cursor (`unwrap_or(0)` when absent). -/
def pullCandidates (device_id : String) (st : SyncDb) (b : Bucket) : List RemoteDeltaObject :=
  ((s3List b "deltas/").filterMap parse_remote_delta_object).filter
    (fun r => r.source_device_id ≠ device_id ∧
      r.timestamp > (get_remote_delta_cursor_timestamp st.config r.source_device_id).getD 0)

/-- The deterministic apply order (step 6): ascending by source device
id, then timestamp, then key. -/
def candLE (a b : RemoteDeltaObject) : Prop :=
  a.source_device_id < b.source_device_id ∨
  (a.source_device_id = b.source_device_id ∧
    (a.timestamp < b.timestamp ∨ (a.timestamp = b.timestamp ∧ a.key ≤ b.key)))

instance : DecidableRel candLE := fun a b => by
  unfold candLE
  infer_instance

instance : IsTotal RemoteDeltaObject candLE where
  total a b := by
    rcases lt_trichotomy a.source_device_id b.source_device_id with h | h | h
    · exact Or.inl (Or.inl h)
    · rcases lt_trichotomy a.timestamp b.timestamp with h2 | h2 | h2
      · exact Or.inl (Or.inr ⟨h, Or.inl h2⟩)
      · rcases le_total a.key b.key with h3 | h3
        · exact Or.inl (Or.inr ⟨h, Or.inr ⟨h2, h3⟩⟩)
        · exact Or.inr (Or.inr ⟨h.symm, Or.inr ⟨h2.symm, h3⟩⟩)
      · exact Or.inr (Or.inr ⟨h.symm, Or.inl h2⟩)
    · exact Or.inr (Or.inl h)

instance : IsTrans RemoteDeltaObject candLE where
  trans a b c hab hbc := by
    rcases hab with h1 | ⟨e1, h1⟩
    · rcases hbc with h2 | ⟨e2, _⟩
      · exact Or.inl (h1.trans h2)
      · exact Or.inl (e2 ▸ h1)
    · rcases hbc with h2 | ⟨e2, h2⟩
      · exact Or.inl (e1 ▸ h2)
      · refine Or.inr ⟨e1.trans e2, ?_⟩
        rcases h1 with h1 | ⟨f1, h1⟩
        · rcases h2 with h2 | ⟨f2, _⟩
          · exact Or.inl (h1.trans h2)
          · exact Or.inl (f2 ▸ h1)
        · rcases h2 with h2 | ⟨f2, h2⟩
          · exact Or.inl (f1 ▸ h2)
          · exact Or.inr ⟨f1.trans f2, h1.trans h2⟩

/-- Download, decompress, verify and apply one remote delta, then mark
the trigger-mirror ledger rows synced and advance the per-source cursor
(step 7 for one object).  Any error leaves the device state exactly as it
was at entry (each Rust step is its own committed transaction, and all
the error exits come before the first write). -/
def applyOne (st : SyncDb) (b : Bucket) (c : RemoteDeltaObject) : Except AppError SyncDb :=
  match getAssoc b c.key with
  | none => .error (AppError.Sync ("S3 download failed: NoSuchKey: " ++ c.key))
  | some (.snapshot _) => .error (AppError.Db "Deserialize delta failed")
  | some (.delta blob) =>
    match Delta.decompress blob with
    | .error e => .error e
    | .ok delta =>
      if Delta.calculate_checksum delta.operations = delta.checksum then
        match apply_delta st.db st.vector_clocks delta with
        | .error e => .error e
        | .ok applied =>
          .ok { config := set_remote_delta_cursor_timestamp st.config c.source_device_id c.timestamp,
                sync_metadata := mark_remote_applied_operations_synced st.sync_metadata
                  (current_max_sync_metadata_id st.sync_metadata) delta.operations,
                db := applied.1, vector_clocks := applied.2 }
      else .error (AppError.Sync ("Checksum mismatch for remote delta " ++ c.key))

/-- The apply loop over the sorted candidates; the first failure stops
the cycle, keeping all state committed so far. -/
def applyLoop (b : Bucket) : SyncDb → List RemoteDeltaObject → SyncDb × Option AppError
  | st, [] => (st, none)
  | st, c :: rest =>
    match applyOne st b c with
    | .ok st' => applyLoop b st' rest
    | .error e => (st, some e)

/-- Steps 5–7: filter, order, apply. -/
def pullPhase (device_id : String) (st : SyncDb) (b : Bucket) : SyncDb × Option AppError :=
  applyLoop b st (List.insertionSort candLE (pullCandidates device_id st b))

/-- Step 8: record `last_sync`, clear `last_sync_error`. -/
def finalizePhase (nowRfc : String) (st : SyncDb) : SyncDb :=
  { st with config := delAssoc (setAssoc st.config "last_sync" nowRfc) "last_sync_error" }

/-- Model of `sync_full_pipeline`: upload + bootstrap, then pull/apply,
then finalize; the first failing step ends the cycle with the state it
left behind. -/
def syncFullPipeline (device_id : String) (now_ns : Int) (uuid nowRfc : String)
    (st : SyncDb) (b : Bucket) : SyncDb × Bucket × Option AppError :=
  match uploadAndBootstrap device_id now_ns uuid nowRfc st b with
  | (st1, b1, some e) => (st1, b1, some e)
  | (st1, b1, none) =>
    match pullPhase device_id st1 b1 with
    | (st2, some e) => (st2, b1, some e)
    | (st2, none) => (finalizePhase nowRfc st2, b1, none)

/-! ## Configuration import

Model of `cmd_sync_import_config` in `src-tauri/src/commands/sync.rs`
(desktop path; the Android-only HTTPS check is conditionally compiled
out).  The input is the parsed payload; a version other than 1 or a
missing `sync_config` object is rejected before any write.  The
subsequent scheduler refresh and the response assembly only read the
store. -/

/-- Conditional overwrite of one string field: imported values that are
absent, non-strings or whitespace-only leave the entry alone; others are
stored trimmed. -/
def importStrWrite (cfg : List (String × String)) (c : Json) (field target : String) :
    List (String × String) :=
  match (jGetOpt c field).bind Json.asStr with
  | some v => if strTrim v ≠ "" then setAssoc cfg target (strTrim v) else cfg
  | none => cfg

/-- Conditional overwrite of the auto-sync interval: only integer values
at least 1 are stored (as decimal text). -/
def importIntervalWrite (cfg : List (String × String)) (c : Json) : List (String × String) :=
  match (jGetOpt c "auto_sync_interval_minutes").bind Json.asInt with
  | some v =>
    if 1 ≤ v then setAssoc cfg "auto_sync_interval_minutes" (intToDecString v) else cfg
  | none => cfg

/-- Model of the write phase of `cmd_sync_import_config`. -/
def cmd_sync_import_config (payload : Json) (cfg : List (String × String)) :
    List (String × String) × Option AppError :=
  let version := ((jGetOpt payload "version").bind Json.asInt).getD 0
  if version ≠ 1 then
    (cfg, some (.Validation ("UNSUPPORTED_VERSION: expected version 1, got " ++ intToDecString version)))
  else
    match jGetOpt payload "sync_config" with
    | none => (cfg, some (.Validation "MISSING_FIELD: sync_config"))
    | some c =>
      let cfg1 := importStrWrite cfg c "bucket" "s3_bucket"
      let cfg2 := importStrWrite cfg1 c "endpoint" "s3_endpoint"
      let cfg3 := importStrWrite cfg2 c "access_key" "s3_access_key"
      let cfg4 := importStrWrite cfg3 c "secret_key" "s3_secret_key"
      (importIntervalWrite cfg4 c, none)

/-! ## Concrete scenario definitions

Inputs used by witnesses and counterexamples further down. -/

/-- The transition table of spec §4.9, as (from, to) pairs. -/
def allowedTransitions : List (Option ProjectStatus × ProjectStatus) :=
  [(none, .Backlog),
   (some .Backlog, .Planned), (some .Backlog, .Archived),
   (some .Planned, .InProgress), (some .Planned, .Archived),
   (some .InProgress, .Blocked), (some .InProgress, .Done),
   (some .Blocked, .InProgress),
   (some .Done, .Archived), (some .Done, .InProgress),
   (some .Archived, .Backlog)]

/-- The note-required transitions of spec §4.9. -/
def noteRequiredTransitions : List (Option ProjectStatus × ProjectStatus) :=
  [(some .Backlog, .Archived), (some .Planned, .Archived),
   (some .Done, .InProgress), (some .Archived, .Backlog)]

/-- An operation `apply_delta` silently skips: an `Insert` or `Update`
whose `data` payload is absent (a JSON `null` deserializes to `None`). -/
def isIgnoredOperation (op : Operation) : Bool :=
  match op.op_type, op.data with
  | .Insert, none => true
  | .Update, none => true
  | _, _ => false

/-- A concrete remote post-image for a person row. -/
def exPersonData : Json :=
  .obj [("id", .str "p1"), ("display_name", .str "Bob"), ("email", .str "b@x"),
        ("role", .str "qa"), ("note", .str "n"), ("is_active", .num 1),
        ("created_at", .str "c2"), ("updated_at", .str "u2")]

/-- A concrete local person row at `_version` 5. -/
def exPersonRowV5 : PersonRow :=
  { id := some "p1", display_name := some "Alice", email := some "a@x", role := some "dev",
    note := some "", is_active := some 1, created_at := some "c1", updated_at := some "u1",
    version := 5 }

/-- A store holding just that person row. -/
def exDbPerson : Db :=
  { Db.empty with persons := [exPersonRowV5] }

/-- An `Insert` operation whose payload is the JSON value `null`
(`data = Some(Value::Null)` in Rust). -/
def exNullOp : Operation :=
  { table_name := "persons", record_id := "p", op_type := .Insert,
    data := some .null, version := 1 }

/-- A delta carrying that operation, with a correctly computed checksum. -/
def exNullDelta : Delta :=
  { id := 1, operations := [exNullOp], device_id := "B", vector_clock := ⟨[("B", 1)]⟩,
    created_at := "t", checksum := Delta.calculate_checksum [exNullOp] }

/-- A well-formed update operation carrying a real post-image. -/
def exGoodOp : Operation :=
  { table_name := "persons", record_id := "p1", op_type := .Update,
    data := some exPersonData, version := 7 }

/-- A delta carrying that operation. -/
def exGoodDelta : Delta :=
  { id := 2, operations := [exGoodOp], device_id := "A", vector_clock := ⟨[("A", 3)]⟩,
    created_at := "t2", checksum := Delta.calculate_checksum [exGoodOp] }

/-- The serialized form of `exPersonRowV5` in the export root. -/
def exExportedPerson : Json :=
  .obj [("id", .str "p1"), ("displayName", .str "Alice"), ("email", .str "a@x"),
        ("role", .str "dev"), ("note", .str ""), ("isActive", .bool true),
        ("createdAt", .str "c1"), ("updatedAt", .str "u1")]

/-- The export root of the one-person store `exDbPerson` at time "t0". -/
def exExportRoot : Json :=
  .obj [("schemaVersion", .num 2), ("exportedAt", .str "t0"),
        ("persons", .arr [exExportedPerson]), ("partners", .arr []),
        ("projects", .arr []), ("assignments", .arr []),
        ("statusHistory", .arr []), ("comments", .arr [])]

/-- A version-1 import payload: usable bucket and credentials, an empty
endpoint (must not overwrite) and interval 5. -/
def exImportPayload : Json :=
  .obj [("version", .num 1), ("exported_at", .str "t"),
        ("sync_config", .obj
          [("bucket", .str " b1 "), ("endpoint", .str ""),
           ("access_key", .str "AK"), ("secret_key", .str "SK"),
           ("auto_sync_interval_minutes", .num 5)])]

/-- The sync_config object inside `exImportPayload`. -/
def exImportCfgObj : Json :=
  .obj [("bucket", .str " b1 "), ("endpoint", .str ""),
        ("access_key", .str "AK"), ("secret_key", .str "SK"),
        ("auto_sync_interval_minutes", .num 5)]

/-- An unsupported version-2 payload. -/
def exImportPayloadV2 : Json :=
  .obj [("version", .num 2)]

/-- A starting configuration store. -/
def exCfg : List (String × String) :=
  [("device_id", "D"), ("sync_enabled", "1"), ("last_sync", "L"), ("s3_endpoint", "oldE")]

/-- A device state with empty config, ledger, tables and clocks. -/
def exEmptyState : SyncDb :=
  { config := [], sync_metadata := [], db := Db.empty, vector_clocks := [] }

/-- The export root of the empty store at time "t1". -/
def exEmptyExportRoot : Json :=
  .obj [("schemaVersion", .num 2), ("exportedAt", .str "t1"),
        ("persons", .arr []), ("partners", .arr []), ("projects", .arr []),
        ("assignments", .arr []), ("statusHistory", .arr []), ("comments", .arr [])]

/-- The bootstrap snapshot of the empty store. -/
def exEmptySnapshot : Snapshot :=
  { version := 1, created_at := "t1", device_id := "A", data := exEmptyExportRoot,
    checksum := Snapshot.calculate_checksum exEmptyExportRoot }

/-! ## Helper lemmas -/

/-- C7: `StatusMachine::can_transition` accepts exactly the spec's table —
initial `∅→BACKLOG`, `BACKLOG→PLANNED/ARCHIVED`, `PLANNED→IN_PROGRESS/ARCHIVED`,
`IN_PROGRESS→BLOCKED/DONE`, `BLOCKED→IN_PROGRESS`, `DONE→ARCHIVED/IN_PROGRESS`,
`ARCHIVED→BACKLOG` — rejecting every self-loop and every other pair, and
`StatusMachine::note_required` holds exactly for `BACKLOG→ARCHIVED`,
`PLANNED→ARCHIVED`, `DONE→IN_PROGRESS` and `ARCHIVED→BACKLOG`. -/
theorem C7_status_machine_table :
    (∀ f : Option ProjectStatus, ∀ t : ProjectStatus,
      (StatusMachine.can_transition f t = true ↔ (f, t) ∈ allowedTransitions) ∧
      (StatusMachine.note_required f t = true ↔ (f, t) ∈ noteRequiredTransitions)) ∧
    (∀ s : ProjectStatus, StatusMachine.can_transition (some s) s = false) := by
  decide

/-- C4 (code evaluation at the failing input): the clocks
`VectorClock::new("a")` and `VectorClock::new("b")` — both freshly seeded
at counter `0` — each report `happened_before` the other, so the claimed
mutual exclusion fails on the code. -/
theorem C4_happened_before_mutual_eval :
    VectorClock.happened_before (VectorClock.new "a") (VectorClock.new "b") = true ∧
    VectorClock.happened_before (VectorClock.new "b") (VectorClock.new "a") = true ∧
    VectorClock.conflicts_with (VectorClock.new "a") (VectorClock.new "b") = false := by
  decide

/-- A skipped operation leaves the store untouched and reports success. -/
theorem applyOperation_ignored (db : Db) (op : Operation)
    (h : isIgnoredOperation op = true) : applyOperation db op = .ok db := by
  rcases op with ⟨tn, rid, ot, data, v⟩
  cases ot <;> cases data <;> simp [isIgnoredOperation] at h <;> rfl

/-- Skipped operations can be dropped from the operation fold. -/
theorem foldlM_applyOperation_filter_ignored :
    ∀ (ops : List Operation) (db : Db),
      ops.foldlM applyOperation db =
        (ops.filter (fun op => ! isIgnoredOperation op)).foldlM applyOperation db
  | [], _ => rfl
  | op :: rest, db => by
    by_cases hig : isIgnoredOperation op = true
    · rw [List.foldlM_cons, applyOperation_ignored db op hig]
      simp only [List.filter_cons, hig]
      exact foldlM_applyOperation_filter_ignored rest db
    · have hcons : (op :: rest).filter (fun o => ! isIgnoredOperation o)
          = op :: rest.filter (fun o => ! isIgnoredOperation o) := by
        simp [List.filter_cons, hig]
      rw [hcons, List.foldlM_cons, List.foldlM_cons]
      cases applyOperation db op with
      | ok db' =>
        show List.foldlM applyOperation db' rest =
          List.foldlM applyOperation db' (rest.filter (fun op => ! isIgnoredOperation op))
        exact foldlM_applyOperation_filter_ignored rest db'
      | error e => rfl

/-- C10: `apply_delta` silently ignores every `Insert`/`Update` operation
without a `data` payload (a JSON `null` payload deserializes to `None`):
applying a delta equals applying the delta with those operations removed —
so no table write, no LWW check and no error for them, while the remaining
operations and the vector-clock write still happen — and each such
operation alone maps the store to itself successfully. -/
theorem C10_null_data_upserts_skipped (db : Db) (vcs : VcStore) (d : Delta) :
    apply_delta db vcs d =
      apply_delta db vcs
        { d with operations := d.operations.filter (fun op => ! isIgnoredOperation op) } ∧
    (∀ op : Operation, isIgnoredOperation op = true → applyOperation db op = Except.ok db) := by
  constructor
  · unfold apply_delta
    rw [foldlM_applyOperation_filter_ignored]
  · exact fun op h => applyOperation_ignored db op h

/-- After an upsert keyed at `k`, looking `k` up finds the new row. -/
theorem findByKey_upsertByKey {α : Type} (key : α → Option String) (rows : List α) (r : α)
    (k : String) (h : key r = some k) :
    findByKey key (upsertByKey key rows r) k = some r := by
  unfold upsertByKey findByKey
  rw [h]
  have hnone : (rows.filter (fun x => key x ≠ some k)).find? (fun x => key x = some k) = none := by
    rw [List.find?_eq_none]
    intro x hx
    have := (List.mem_filter.mp hx).2
    simpa using this
  rw [List.find?_append, hnone]
  simp [List.find?_cons, h]

/-- The LWW guard accepts when no local row exists. -/
theorem should_apply_true_of_none (db : Db) (table record_id : String) (version : Int)
    (h : localVersion db table record_id = none) :
    should_apply_upsert_lww db table record_id version = true := by
  unfold should_apply_upsert_lww
  split
  · rfl
  · split
    · rfl
    · rw [h]

/-- The LWW guard accepts when the remote version is at least the local
`_version`. -/
theorem should_apply_true_of_le (db : Db) (table record_id : String) (version lv : Int)
    (h : localVersion db table record_id = some lv) (hle : lv ≤ version) :
    should_apply_upsert_lww db table record_id version = true := by
  unfold should_apply_upsert_lww
  split
  · rfl
  · split
    · rfl
    · rw [h]
      simp [not_lt.mpr hle]

/-- The LWW guard rejects a stale remote version on a versioned table. -/
theorem should_apply_false_of_lt (db : Db) (table record_id : String) (version lv : Int)
    (htab : table ∈ versionedTables) (h : localVersion db table record_id = some lv)
    (hlt : version < lv) :
    should_apply_upsert_lww db table record_id version = false := by
  unfold should_apply_upsert_lww
  have htag : ¬ table = "project_tags" := by
    intro h'
    subst h'
    simp [versionedTables] at htab
  rw [if_neg htag, if_neg (not_not_intro htab), h]
  simp [hlt]

/-- C1: for a remote `Insert`/`Update` on a table carrying `_version`
(given a well-formed post-image whose `id` field names the operated row,
as the capture triggers guarantee), the delta engine skips the operation
exactly when a local row exists and the remote version is strictly below
its `_version`; otherwise — row absent, or remote version greater or
equal — the operation's table write replaces the row by the full
post-image extraction with the remote version stored as `_version`. -/
theorem C1_lww_upsert_guard (db : Db) (table record_id : String) (data : Json) (version : Int)
    (htab : table ∈ versionedTables)
    (hid : (jGet data "id").asStr = some record_id) :
    (∀ lv : Int, localVersion db table record_id = some lv → version < lv →
        apply_upsert db table record_id data version = db) ∧
    ((localVersion db table record_id = none ∨
        (∃ lv : Int, localVersion db table record_id = some lv ∧ lv ≤ version)) →
      apply_upsert db table record_id data version = upsertDispatch db table data version ∧
      localVersion (apply_upsert db table record_id data version) table record_id = some version) := by
  refine ⟨fun lv hlv hlt => ?_, fun hdis => ?_⟩
  · unfold apply_upsert
    rw [should_apply_false_of_lt db table record_id version lv htab hlv hlt]
    simp
  · have hguard : should_apply_upsert_lww db table record_id version = true := by
      rcases hdis with hnone | ⟨lv, hlv, hle⟩
      · exact should_apply_true_of_none db table record_id version hnone
      · exact should_apply_true_of_le db table record_id version lv hlv hle
    have happly : apply_upsert db table record_id data version = upsertDispatch db table data version := by
      unfold apply_upsert
      rw [hguard]
      simp
    refine ⟨happly, ?_⟩
    rw [happly]
    have hsix : table = "projects" ∨ table = "persons" ∨ table = "partners" ∨
        table = "assignments" ∨ table = "status_history" ∨ table = "project_comments" := by
      simpa [versionedTables] using htab
    rcases hsix with h | h | h | h | h | h <;> subst h <;>
      simp [upsertDispatch, localVersion, findByKey_upsertByKey, projectFromJson,
            personFromJson, partnerFromJson, assignmentFromJson, statusHistoryFromJson,
            projectCommentFromJson, hid]

/-- Witness for C1 at a concrete input: a person row at `_version` 5, a
stale remote update at version 3 (skipped) and a fresh one at version 7
(applied, storing `_version` 7). -/
theorem C1_lww_upsert_guard_witness :
    ("persons" ∈ versionedTables) ∧
    (jGet exPersonData "id").asStr = some "p1" ∧
    localVersion exDbPerson "persons" "p1" = some 5 ∧
    apply_upsert exDbPerson "persons" "p1" exPersonData 3 = exDbPerson ∧
    apply_upsert exDbPerson "persons" "p1" exPersonData 7 =
      upsertDispatch exDbPerson "persons" exPersonData 7 ∧
    localVersion (apply_upsert exDbPerson "persons" "p1" exPersonData 7) "persons" "p1" = some 7 := by
  have h1 := C1_lww_upsert_guard exDbPerson "persons" "p1" exPersonData 3 (by decide) (by decide)
  have h2 := C1_lww_upsert_guard exDbPerson "persons" "p1" exPersonData 7 (by decide) (by decide)
  have h2c := h2.2 (Or.inr ⟨5, by decide, by decide⟩)
  exact ⟨by decide, by decide, by decide, h1.1 5 (by decide) (by decide), h2c.1, h2c.2⟩

/-- Serde round-trip of one operation, provided its payload is not the
JSON value `null` (serde renders `Some(Null)` and `None` identically, so
only `Some(Null)` fails to come back). -/
theorem decodeOperation_encodeOperation (op : Operation) (h : op.data ≠ some Json.null) :
    decodeOperation (encodeOperation op) = some op := by
  rcases op with ⟨tn, rid, ot, data, v⟩
  cases ot <;>
    (rcases data with _ | j
     · rfl
     · cases j <;> first | rfl | (exact absurd rfl h))

/-- Serde round-trip of an operation list. -/
theorem mapM_decodeOperation_encodeOperation (ops : List Operation)
    (h : ∀ op ∈ ops, op.data ≠ some Json.null) :
    optionMapM decodeOperation (ops.map encodeOperation) = some ops := by
  induction ops with
  | nil => rfl
  | cons op rest ih =>
    rw [List.map_cons]
    show (decodeOperation (encodeOperation op)).bind _ = _
    rw [decodeOperation_encodeOperation op (h op (by simp)), ih (fun o ho => h o (by simp [ho]))]
    rfl

/-- Serde round-trip of the clock map entries. -/
theorem mapM_decode_clocks (cs : List (String × Int)) :
    optionMapM (fun p => (p.2.asInt).map (fun n => (p.1, n)))
      (cs.map (fun p => (p.1, Json.num p.2))) = some cs := by
  induction cs with
  | nil => rfl
  | cons c rest ih =>
    rw [List.map_cons]
    show Option.bind _ _ = _
    rw [show ((fun (p : String × Json) => (p.2.asInt).map (fun n => (p.1, n))) (c.1, Json.num c.2))
          = some c from rfl]
    rw [Option.some_bind, ih]
    rfl

/-- Serde round-trip of a vector clock. -/
theorem decodeVectorClock_encodeVectorClock (vc : VectorClock) :
    decodeVectorClock (encodeVectorClock vc) = some vc := by
  rcases vc with ⟨clocks⟩
  unfold decodeVectorClock encodeVectorClock
  simp [jGetOpt, mapM_decode_clocks]

/-- Serde round-trip of a whole delta whose operations carry no
`Some(Null)` payload. -/
theorem decodeDelta_encodeDelta (d : Delta) (h : ∀ op ∈ d.operations, op.data ≠ some Json.null) :
    decodeDelta (encodeDelta d) = some d := by
  rcases d with ⟨i, ops, dev, vc, ca, ck⟩
  have h1 : optionMapM decodeOperation (ops.map encodeOperation) = some ops :=
    mapM_decodeOperation_encodeOperation ops h
  have h2 : decodeVectorClock (encodeVectorClock vc) = some vc :=
    decodeVectorClock_encodeVectorClock vc
  unfold decodeDelta encodeDelta
  simp [jGetOpt, Json.asStr, Json.asInt, h1, h2]

set_option maxRecDepth 4096

/-- C5 (amended): a delta none of whose operations carries the payload
`Some(Null)` round-trips through the codec —
`decompress(compress(d)) = Ok(d)` — and `calculate_checksum` is a pure
function of the operation list, so repeated invocations return the same
string. -/
theorem C5_delta_roundtrip (d : Delta) (h : ∀ op ∈ d.operations, op.data ≠ some Json.null) :
    Delta.decompress (Delta.compress d) = .ok d ∧
    Delta.calculate_checksum d.operations = Delta.calculate_checksum d.operations := by
  constructor
  · unfold Delta.compress Delta.decompress
    rw [decodeDelta_encodeDelta d h]
  · rfl

/-- C5 counterexample: the delta `exNullDelta`, whose single operation
has payload `Some(Value::Null)`, does not round-trip: serde serializes
`Some(Null)` as `null`, which deserializes to `None`, so the decompressed
delta differs from the original at that `data` field. -/
theorem C5_delta_roundtrip_counterexample :
    Delta.decompress (Delta.compress exNullDelta) =
      .ok { exNullDelta with operations := [{ exNullOp with data := none }] } ∧
    Delta.decompress (Delta.compress exNullDelta) ≠ .ok exNullDelta := by
  constructor
  · decide
  · decide

/-- Witness for C5 at a concrete delta with a real payload. -/
theorem C5_delta_roundtrip_witness :
    (∀ op ∈ exGoodDelta.operations, op.data ≠ some Json.null) ∧
    Delta.decompress (Delta.compress exGoodDelta) = .ok exGoodDelta := by
  exact ⟨by decide, (C5_delta_roundtrip exGoodDelta (by decide)).1⟩

/-- Inversion of `exceptMapM`: every element of a successful result comes
from some input element. -/
theorem exceptMapM_ok_mem {α β : Type} (f : α → Except AppError β) :
    ∀ (xs : List α) (ys : List β), exceptMapM f xs = .ok ys →
      ∀ y ∈ ys, ∃ x ∈ xs, f x = .ok y
  | [], ys, h => by
    cases h
    intro y hy
    cases hy
  | x :: xs, ys, h => by
    unfold exceptMapM at h
    cases hfx : f x with
    | error e => rw [hfx] at h; cases h
    | ok b =>
      rw [hfx] at h
      cases hrest : exceptMapM f xs with
      | error e =>
        rw [hrest] at h
        cases h
      | ok bs =>
        rw [hrest] at h
        cases h
        intro y hy
        rcases List.mem_cons.mp hy with hy | hy
        · exact ⟨x, List.mem_cons_self x xs, by rw [hfx, hy]⟩
        · rcases exceptMapM_ok_mem f xs bs hrest y hy with ⟨x', hx', hfx'⟩
          exact ⟨x', List.mem_cons_of_mem x hx', hfx'⟩

/-- A successful `exportPerson` is an object with exactly the camelCase
person columns and no version key. -/
theorem exportPerson_keys (r : PersonRow) (j : Json) (h : exportPerson r = .ok j) :
    jsonObjKeys j =
      ["id", "displayName", "email", "role", "note", "isActive", "createdAt", "updatedAt"] := by
  unfold exportPerson reqStr reqInt at h
  rcases r with ⟨id, dn, em, ro, no, ia, ca, ua, v⟩
  cases id <;> cases dn <;> cases em <;> cases ro <;> cases no <;> cases ia <;>
    cases ca <;> cases ua <;> cases h <;> rfl

/-- A successful `exportPartner` has exactly the camelCase partner
columns. -/
theorem exportPartner_keys (r : PartnerRow) (j : Json) (h : exportPartner r = .ok j) :
    jsonObjKeys j = ["id", "name", "note", "isActive", "createdAt", "updatedAt"] := by
  unfold exportPartner reqStr reqInt at h
  rcases r with ⟨id, na, no, ia, ca, ua, v⟩
  cases id <;> cases na <;> cases no <;> cases ia <;> cases ca <;> cases ua <;>
    cases h <;> rfl

/-- A successful `exportProject` has exactly the camelCase project
columns, and its `tags` entry is an array of strings. -/
theorem exportProject_keys (tags : List ProjectTagRow) (r : ProjectRow) (j : Json)
    (h : exportProject tags r = .ok j) :
    jsonObjKeys j =
      ["id", "name", "description", "priority", "currentStatus", "countryCode", "partnerId",
       "ownerPersonId", "startDate", "dueDate", "createdAt", "updatedAt", "archivedAt", "tags"] ∧
    ∃ ts : List String, jGet j "tags" = .arr (ts.map (fun t => .str t)) := by
  unfold exportProject reqStr reqInt at h
  rcases r with ⟨id, na, de, pr, cs, cc, pi, op, sd, dd, ca, ua, aa, v⟩
  cases id <;> cases na <;> cases de <;> cases pr <;> cases cs <;> cases cc <;>
    cases pi <;> cases op <;> cases ca <;> cases ua <;> cases h <;> exact ⟨rfl, _, rfl⟩

/-- A successful `exportAssignment` has exactly the camelCase assignment
columns. -/
theorem exportAssignment_keys (r : AssignmentRow) (j : Json) (h : exportAssignment r = .ok j) :
    jsonObjKeys j = ["id", "projectId", "personId", "role", "startAt", "endAt", "createdAt"] := by
  unfold exportAssignment reqStr at h
  rcases r with ⟨id, pj, pe, ro, sa, ea, ca, v⟩
  cases id <;> cases pj <;> cases pe <;> cases ro <;> cases sa <;> cases ca <;>
    cases h <;> rfl

/-- A successful `exportStatusHistory` has exactly the camelCase
status-history columns. -/
theorem exportStatusHistory_keys (r : StatusHistoryRow) (j : Json)
    (h : exportStatusHistory r = .ok j) :
    jsonObjKeys j =
      ["id", "projectId", "fromStatus", "toStatus", "changedAt", "changedByPersonId", "note"] := by
  unfold exportStatusHistory reqStr at h
  rcases r with ⟨id, pj, fs, ts, ch, cb, no, v⟩
  cases id <;> cases pj <;> cases ts <;> cases ch <;> cases no <;>
    cases h <;> rfl

/-- A successful `exportComment` has exactly the camelCase comment
columns. -/
theorem exportComment_keys (r : ProjectCommentRow) (j : Json) (h : exportComment r = .ok j) :
    jsonObjKeys j =
      ["id", "projectId", "personId", "content", "isPinned", "createdAt", "updatedAt"] := by
  unfold exportComment reqStr at h
  rcases r with ⟨id, pj, pe, co, ip, ca, ua, v⟩
  cases id <;> cases pj <;> cases co <;> cases ca <;> cases ua <;>
    cases h <;> rfl

/-- C8 (amended): for every database state whose export succeeds, the
snapshot payload's export root is a camelCase object with exactly the
keys `schemaVersion`, `exportedAt`, `persons`, `partners`, `projects`,
`assignments`, `statusHistory`, `comments`; each array element carries
exactly the persisted business columns in camelCase — and hence no
`_version` — and each project carries a nested `tags` array of strings. -/
theorem C8_export_root_shape (db : Db) (t : String) (root : Json)
    (h : export_json_string db t = .ok root) :
    jsonObjKeys root = ["schemaVersion", "exportedAt", "persons", "partners", "projects",
                        "assignments", "statusHistory", "comments"] ∧
    (∃ ps, jGet root "persons" = .arr ps ∧ ∀ p ∈ ps,
      jsonObjKeys p = ["id", "displayName", "email", "role", "note", "isActive",
                       "createdAt", "updatedAt"]) ∧
    (∃ ps, jGet root "partners" = .arr ps ∧ ∀ p ∈ ps,
      jsonObjKeys p = ["id", "name", "note", "isActive", "createdAt", "updatedAt"]) ∧
    (∃ ps, jGet root "projects" = .arr ps ∧ ∀ p ∈ ps,
      jsonObjKeys p = ["id", "name", "description", "priority", "currentStatus", "countryCode",
                       "partnerId", "ownerPersonId", "startDate", "dueDate", "createdAt",
                       "updatedAt", "archivedAt", "tags"] ∧
      ∃ ts : List String, jGet p "tags" = .arr (ts.map (fun s => .str s))) ∧
    (∃ ps, jGet root "assignments" = .arr ps ∧ ∀ p ∈ ps,
      jsonObjKeys p = ["id", "projectId", "personId", "role", "startAt", "endAt", "createdAt"]) ∧
    (∃ ps, jGet root "statusHistory" = .arr ps ∧ ∀ p ∈ ps,
      jsonObjKeys p = ["id", "projectId", "fromStatus", "toStatus", "changedAt",
                       "changedByPersonId", "note"]) ∧
    (∃ ps, jGet root "comments" = .arr ps ∧ ∀ p ∈ ps,
      jsonObjKeys p = ["id", "projectId", "personId", "content", "isPinned",
                       "createdAt", "updatedAt"]) := by
  unfold export_json_string at h
  cases h1 : exceptMapM exportPerson db.persons with
  | error e => rw [h1] at h; cases h
  | ok persons =>
  rw [h1] at h
  cases h2 : exceptMapM exportPartner db.partners with
  | error e => rw [h2] at h; cases h
  | ok partners =>
  rw [h2] at h
  cases h3 : exceptMapM (exportProject db.project_tags) db.projects with
  | error e => rw [h3] at h; cases h
  | ok projects =>
  rw [h3] at h
  cases h4 : exceptMapM exportAssignment db.assignments with
  | error e => rw [h4] at h; cases h
  | ok assignments =>
  rw [h4] at h
  cases h5 : exceptMapM exportStatusHistory db.status_history with
  | error e => rw [h5] at h; cases h
  | ok history =>
  rw [h5] at h
  cases h6 : exceptMapM exportComment db.project_comments with
  | error e => rw [h6] at h; cases h
  | ok comments =>
  rw [h6] at h
  cases h
  refine ⟨rfl, ⟨persons, rfl, fun p hp => ?_⟩, ⟨partners, rfl, fun p hp => ?_⟩,
    ⟨projects, rfl, fun p hp => ?_⟩, ⟨assignments, rfl, fun p hp => ?_⟩,
    ⟨history, rfl, fun p hp => ?_⟩, ⟨comments, rfl, fun p hp => ?_⟩⟩
  · rcases exceptMapM_ok_mem exportPerson db.persons persons h1 p hp with ⟨r, _, hr⟩
    exact exportPerson_keys r p hr
  · rcases exceptMapM_ok_mem exportPartner db.partners partners h2 p hp with ⟨r, _, hr⟩
    exact exportPartner_keys r p hr
  · rcases exceptMapM_ok_mem (exportProject db.project_tags) db.projects projects h3 p hp
      with ⟨r, _, hr⟩
    exact exportProject_keys db.project_tags r p hr
  · rcases exceptMapM_ok_mem exportAssignment db.assignments assignments h4 p hp with ⟨r, _, hr⟩
    exact exportAssignment_keys r p hr
  · rcases exceptMapM_ok_mem exportStatusHistory db.status_history history h5 p hp with ⟨r, _, hr⟩
    exact exportStatusHistory_keys r p hr
  · rcases exceptMapM_ok_mem exportComment db.project_comments comments h6 p hp with ⟨r, _, hr⟩
    exact exportComment_keys r p hr

/-- C8 counterexample: for the concrete one-person store `exDbPerson`,
`Snapshot::create`'s data is the export root whose person object carries
the persisted columns but no `_version` key (and no `version` key), so
the claim that every exported object includes `_version` fails. -/
theorem C8_export_root_shape_counterexample :
    export_json_string exDbPerson "t0" = .ok exExportRoot ∧
    Snapshot.create exDbPerson "A" "t0" =
      .ok { version := 1, created_at := "t0", device_id := "A", data := exExportRoot,
            checksum := Snapshot.calculate_checksum exExportRoot } ∧
    jGet exExportRoot "persons" = .arr [exExportedPerson] ∧
    ¬ ("_version" ∈ jsonObjKeys exExportedPerson) ∧
    ¬ ("version" ∈ jsonObjKeys exExportedPerson) := by
  refine ⟨by decide, by decide, by decide, by decide, by decide⟩

/-- Witness for C8 at the concrete one-person store. -/
theorem C8_export_root_shape_witness :
    export_json_string exDbPerson "t0" = .ok exExportRoot ∧
    jsonObjKeys exExportRoot = ["schemaVersion", "exportedAt", "persons", "partners",
                                "projects", "assignments", "statusHistory", "comments"] :=
  ⟨by decide, (C8_export_root_shape exDbPerson "t0" exExportRoot (by decide)).1⟩

/-- Reading back the key just written. -/
theorem getAssoc_setAssoc_self {β : Type} :
    ∀ (l : List (String × β)) (k : String) (v : β), getAssoc (setAssoc l k v) k = some v
  | [], k, v => by simp [setAssoc, getAssoc, List.find?]
  | p :: rest, k, v => by
    by_cases h : p.1 = k
    · simp [setAssoc, h, getAssoc, List.find?]
    · simp only [setAssoc, if_neg h]
      rw [show getAssoc (p :: setAssoc rest k v) k = getAssoc (setAssoc rest k v) k from by
        simp [getAssoc, List.find?, h]]
      exact getAssoc_setAssoc_self rest k v

/-- A write leaves every other key unchanged. -/
theorem getAssoc_setAssoc_ne {β : Type} :
    ∀ (l : List (String × β)) (k k' : String) (v : β), k' ≠ k →
      getAssoc (setAssoc l k v) k' = getAssoc l k'
  | [], k, k', v, h => by
    have h' : ¬ k = k' := fun hk => h hk.symm
    simp [setAssoc, getAssoc, List.find?, h']
  | p :: rest, k, k', v, h => by
    have h' : ¬ k = k' := fun hk => h hk.symm
    by_cases hp : p.1 = k
    · have hp' : ¬ p.1 = k' := by rw [hp]; exact h'
      simp [setAssoc, hp, getAssoc, List.find?, hp', h']
    · simp only [setAssoc, if_neg hp]
      by_cases hpk : p.1 = k'
      · simp [getAssoc, List.find?, hpk]
      · rw [show getAssoc (p :: setAssoc rest k v) k' = getAssoc (setAssoc rest k v) k' from by
          simp [getAssoc, List.find?, hpk]]
        rw [show getAssoc (p :: rest) k' = getAssoc rest k' from by
          simp [getAssoc, List.find?, hpk]]
        exact getAssoc_setAssoc_ne rest k k' v h

/-- Deleting one key leaves every other key unchanged. -/
theorem getAssoc_delAssoc_ne {β : Type} :
    ∀ (l : List (String × β)) (k k' : String), k' ≠ k →
      getAssoc (delAssoc l k) k' = getAssoc l k'
  | [], k, k', h => rfl
  | p :: rest, k, k', h => by
    by_cases hp : p.1 = k
    · have hp' : ¬ p.1 = k' := by rw [hp]; exact fun hk => h hk.symm
      rw [show delAssoc (p :: rest) k = delAssoc rest k from by simp [delAssoc, hp]]
      rw [show getAssoc (p :: rest) k' = getAssoc rest k' from by
        simp [getAssoc, List.find?, hp']]
      exact getAssoc_delAssoc_ne rest k k' h
    · rw [show delAssoc (p :: rest) k = p :: delAssoc rest k from by simp [delAssoc, hp]]
      by_cases hpk : p.1 = k'
      · simp [getAssoc, List.find?, hpk]
      · rw [show getAssoc (p :: delAssoc rest k) k' = getAssoc (delAssoc rest k) k' from by
          simp [getAssoc, List.find?, hpk]]
        rw [show getAssoc (p :: rest) k' = getAssoc rest k' from by
          simp [getAssoc, List.find?, hpk]]
        exact getAssoc_delAssoc_ne rest k k' h

/-- An import of one string field touches no other key. -/
theorem getAssoc_importStrWrite_ne (cfg : List (String × String)) (c : Json)
    (field target k : String) (h : k ≠ target) :
    getAssoc (importStrWrite cfg c field target) k = getAssoc cfg k := by
  unfold importStrWrite
  cases (jGetOpt c field).bind Json.asStr with
  | none => rfl
  | some v =>
    dsimp only
    by_cases hv : strTrim v ≠ ""
    · rw [if_pos hv]
      exact getAssoc_setAssoc_ne cfg target k (strTrim v) h
    · rw [if_neg hv]

/-- The value an import leaves at its own target key. -/
theorem getAssoc_importStrWrite_self (cfg : List (String × String)) (c : Json)
    (field target : String) :
    getAssoc (importStrWrite cfg c field target) target =
      (match (jGetOpt c field).bind Json.asStr with
       | some v => if strTrim v ≠ "" then some (strTrim v) else getAssoc cfg target
       | none => getAssoc cfg target) := by
  unfold importStrWrite
  cases (jGetOpt c field).bind Json.asStr with
  | none => rfl
  | some v =>
    dsimp only
    by_cases hv : strTrim v ≠ ""
    · rw [if_pos hv, if_pos hv]
      exact getAssoc_setAssoc_self cfg target (strTrim v)
    · rw [if_neg hv, if_neg hv]

/-- The interval import touches no other key. -/
theorem getAssoc_importIntervalWrite_ne (cfg : List (String × String)) (c : Json)
    (k : String) (h : k ≠ "auto_sync_interval_minutes") :
    getAssoc (importIntervalWrite cfg c) k = getAssoc cfg k := by
  unfold importIntervalWrite
  cases (jGetOpt c "auto_sync_interval_minutes").bind Json.asInt with
  | none => rfl
  | some v =>
    dsimp only
    by_cases hv : 1 ≤ v
    · rw [if_pos hv]
      exact getAssoc_setAssoc_ne cfg "auto_sync_interval_minutes" k (intToDecString v) h
    · rw [if_neg hv]

/-- The value the interval import leaves at its own key. -/
theorem getAssoc_importIntervalWrite_self (cfg : List (String × String)) (c : Json) :
    getAssoc (importIntervalWrite cfg c) "auto_sync_interval_minutes" =
      (match (jGetOpt c "auto_sync_interval_minutes").bind Json.asInt with
       | some v => if 1 ≤ v then some (intToDecString v)
                   else getAssoc cfg "auto_sync_interval_minutes"
       | none => getAssoc cfg "auto_sync_interval_minutes") := by
  unfold importIntervalWrite
  cases (jGetOpt c "auto_sync_interval_minutes").bind Json.asInt with
  | none => rfl
  | some v =>
    dsimp only
    by_cases hv : 1 ≤ v
    · rw [if_pos hv, if_pos hv]
      exact getAssoc_setAssoc_self cfg "auto_sync_interval_minutes" (intToDecString v)
    · rw [if_neg hv, if_neg hv]

/-- C9: `cmd_sync_import_config` writes only the five sync-config keys,
each only when the imported value is usable (non-empty after trimming for
the string fields; an integer at least 1 for the interval); it never
touches `device_id`, `sync_enabled` or `last_sync`; and a payload whose
version is not 1 is rejected with a validation error leaving the whole
configuration unchanged. -/
theorem C9_import_config (payload : Json) (cfg : List (String × String)) :
    (∀ k : String, k ≠ "s3_bucket" → k ≠ "s3_endpoint" → k ≠ "s3_access_key" →
        k ≠ "s3_secret_key" → k ≠ "auto_sync_interval_minutes" →
        getAssoc (cmd_sync_import_config payload cfg).1 k = getAssoc cfg k) ∧
    getAssoc (cmd_sync_import_config payload cfg).1 "device_id" = getAssoc cfg "device_id" ∧
    getAssoc (cmd_sync_import_config payload cfg).1 "sync_enabled" = getAssoc cfg "sync_enabled" ∧
    getAssoc (cmd_sync_import_config payload cfg).1 "last_sync" = getAssoc cfg "last_sync" ∧
    (((jGetOpt payload "version").bind Json.asInt).getD 0 ≠ 1 →
      cmd_sync_import_config payload cfg =
        (cfg, some (.Validation ("UNSUPPORTED_VERSION: expected version 1, got "
          ++ intToDecString (((jGetOpt payload "version").bind Json.asInt).getD 0))))) ∧
    (∀ c : Json, ((jGetOpt payload "version").bind Json.asInt).getD 0 = 1 →
      jGetOpt payload "sync_config" = some c →
      (cmd_sync_import_config payload cfg).2 = none ∧
      getAssoc (cmd_sync_import_config payload cfg).1 "s3_bucket" =
        (match (jGetOpt c "bucket").bind Json.asStr with
         | some v => if strTrim v ≠ "" then some (strTrim v) else getAssoc cfg "s3_bucket"
         | none => getAssoc cfg "s3_bucket") ∧
      getAssoc (cmd_sync_import_config payload cfg).1 "s3_endpoint" =
        (match (jGetOpt c "endpoint").bind Json.asStr with
         | some v => if strTrim v ≠ "" then some (strTrim v) else getAssoc cfg "s3_endpoint"
         | none => getAssoc cfg "s3_endpoint") ∧
      getAssoc (cmd_sync_import_config payload cfg).1 "s3_access_key" =
        (match (jGetOpt c "access_key").bind Json.asStr with
         | some v => if strTrim v ≠ "" then some (strTrim v) else getAssoc cfg "s3_access_key"
         | none => getAssoc cfg "s3_access_key") ∧
      getAssoc (cmd_sync_import_config payload cfg).1 "s3_secret_key" =
        (match (jGetOpt c "secret_key").bind Json.asStr with
         | some v => if strTrim v ≠ "" then some (strTrim v) else getAssoc cfg "s3_secret_key"
         | none => getAssoc cfg "s3_secret_key") ∧
      getAssoc (cmd_sync_import_config payload cfg).1 "auto_sync_interval_minutes" =
        (match (jGetOpt c "auto_sync_interval_minutes").bind Json.asInt with
         | some v => if 1 ≤ v then some (intToDecString v)
                     else getAssoc cfg "auto_sync_interval_minutes"
         | none => getAssoc cfg "auto_sync_interval_minutes")) := by
  by_cases hv : ((jGetOpt payload "version").bind Json.asInt).getD 0 = 1
  · have hcond : ¬ (((jGetOpt payload "version").bind Json.asInt).getD 0 ≠ 1) :=
      not_not_intro hv
    cases hc : jGetOpt payload "sync_config" with
    | none =>
      have hres : cmd_sync_import_config payload cfg =
          (cfg, some (.Validation "MISSING_FIELD: sync_config")) := by
        unfold cmd_sync_import_config
        rw [if_neg hcond, hc]
      exact ⟨fun k _ _ _ _ _ => by rw [hres], by rw [hres], by rw [hres], by rw [hres],
        fun hne => absurd hv hne, fun c h1 h2 => Option.noConfusion h2⟩
    | some c2 =>
      have hres : cmd_sync_import_config payload cfg =
          (importIntervalWrite
            (importStrWrite
              (importStrWrite
                (importStrWrite
                  (importStrWrite cfg c2 "bucket" "s3_bucket")
                  c2 "endpoint" "s3_endpoint")
                c2 "access_key" "s3_access_key")
              c2 "secret_key" "s3_secret_key") c2, none) := by
        unfold cmd_sync_import_config
        rw [if_neg hcond]
        rw [hc]
      have hframe : ∀ k : String, k ≠ "s3_bucket" → k ≠ "s3_endpoint" → k ≠ "s3_access_key" →
          k ≠ "s3_secret_key" → k ≠ "auto_sync_interval_minutes" →
          getAssoc (cmd_sync_import_config payload cfg).1 k = getAssoc cfg k := by
        intro k h1 h2 h3 h4 h5
        rw [hres]
        dsimp only
        rw [getAssoc_importIntervalWrite_ne _ _ _ h5,
            getAssoc_importStrWrite_ne _ _ _ _ _ h4,
            getAssoc_importStrWrite_ne _ _ _ _ _ h3,
            getAssoc_importStrWrite_ne _ _ _ _ _ h2,
            getAssoc_importStrWrite_ne _ _ _ _ _ h1]
      refine ⟨hframe,
        hframe _ (by decide) (by decide) (by decide) (by decide) (by decide),
        hframe _ (by decide) (by decide) (by decide) (by decide) (by decide),
        hframe _ (by decide) (by decide) (by decide) (by decide) (by decide),
        fun hne => absurd hv hne, fun c h1 h2 => ?_⟩
      injection h2 with h2
      subst h2
      refine ⟨by rw [hres], ?_, ?_, ?_, ?_, ?_⟩
      · rw [hres]
        dsimp only
        rw [getAssoc_importIntervalWrite_ne _ _ _ (by decide),
            getAssoc_importStrWrite_ne _ _ _ _ _ (by decide),
            getAssoc_importStrWrite_ne _ _ _ _ _ (by decide),
            getAssoc_importStrWrite_ne _ _ _ _ _ (by decide),
            getAssoc_importStrWrite_self]
      · rw [hres]
        dsimp only
        rw [getAssoc_importIntervalWrite_ne _ _ _ (by decide),
            getAssoc_importStrWrite_ne _ _ _ _ _ (by decide),
            getAssoc_importStrWrite_ne _ _ _ _ _ (by decide),
            getAssoc_importStrWrite_self,
            getAssoc_importStrWrite_ne _ _ _ _ _ (by decide)]
      · rw [hres]
        dsimp only
        rw [getAssoc_importIntervalWrite_ne _ _ _ (by decide),
            getAssoc_importStrWrite_ne _ _ _ _ _ (by decide),
            getAssoc_importStrWrite_self,
            getAssoc_importStrWrite_ne _ _ _ _ _ (by decide),
            getAssoc_importStrWrite_ne _ _ _ _ _ (by decide)]
      · rw [hres]
        dsimp only
        rw [getAssoc_importIntervalWrite_ne _ _ _ (by decide),
            getAssoc_importStrWrite_self,
            getAssoc_importStrWrite_ne _ _ _ _ _ (by decide),
            getAssoc_importStrWrite_ne _ _ _ _ _ (by decide),
            getAssoc_importStrWrite_ne _ _ _ _ _ (by decide)]
      · rw [hres]
        dsimp only
        rw [getAssoc_importIntervalWrite_self,
            getAssoc_importStrWrite_ne _ _ _ _ _ (by decide),
            getAssoc_importStrWrite_ne _ _ _ _ _ (by decide),
            getAssoc_importStrWrite_ne _ _ _ _ _ (by decide),
            getAssoc_importStrWrite_ne _ _ _ _ _ (by decide)]
  · have hres : cmd_sync_import_config payload cfg =
        (cfg, some (.Validation ("UNSUPPORTED_VERSION: expected version 1, got "
          ++ intToDecString (((jGetOpt payload "version").bind Json.asInt).getD 0)))) := by
      unfold cmd_sync_import_config
      rw [if_pos hv]
    exact ⟨fun k _ _ _ _ _ => by rw [hres], by rw [hres], by rw [hres], by rw [hres],
      fun _ => hres, fun c h1 _ => absurd h1 hv⟩

/-- Witness for C9 at a concrete payload and configuration: `device_id`,
`sync_enabled` and `last_sync` survive, an unsupported version leaves the
store untouched with a validation error, the trimmed bucket is written,
and the empty endpoint does not overwrite the stored one. -/
theorem C9_import_config_witness :
    getAssoc (cmd_sync_import_config exImportPayload exCfg).1 "device_id" = some "D" ∧
    getAssoc (cmd_sync_import_config exImportPayload exCfg).1 "sync_enabled" = some "1" ∧
    getAssoc (cmd_sync_import_config exImportPayload exCfg).1 "last_sync" = some "L" ∧
    cmd_sync_import_config exImportPayloadV2 exCfg =
      (exCfg, some (.Validation "UNSUPPORTED_VERSION: expected version 1, got 2")) ∧
    (cmd_sync_import_config exImportPayload exCfg).2 = none ∧
    getAssoc (cmd_sync_import_config exImportPayload exCfg).1 "s3_bucket" = some "b1" ∧
    getAssoc (cmd_sync_import_config exImportPayload exCfg).1 "s3_endpoint" = some "oldE" := by
  have h1 := C9_import_config exImportPayload exCfg
  have h2 := C9_import_config exImportPayloadV2 exCfg
  have hok := h1.2.2.2.2.2 exImportCfgObj (by decide) (by decide)
  exact ⟨h1.2.1.trans (by decide), h1.2.2.1.trans (by decide), h1.2.2.2.1.trans (by decide),
    (h2.2.2.2.2.1 (by decide)).trans (by decide), hok.1,
    hok.2.1.trans (by decide), hok.2.2.1.trans (by decide)⟩

/-- When every ledger row is already synced, the remote-mirror marking
changes nothing. -/
theorem mark_remote_applied_id (mid : Int) :
    ∀ (ops : List Operation) (meta : List SyncMetaRow),
      (∀ r ∈ meta, r.synced = true) →
      mark_remote_applied_operations_synced meta mid ops = meta
  | [], _, _ => rfl
  | op :: ops, meta, h => by
    unfold mark_remote_applied_operations_synced
    rw [List.foldl_cons]
    have hmap : meta.map (fun r =>
        if r.id > mid ∧ ¬ r.synced ∧ r.table_name = op.table_name ∧
           r.record_id = op.record_id ∧ r.operation = operation_type_to_sql_name op.op_type ∧
           r.version = op.version
        then { r with synced := true } else r) = meta := by
      rw [List.map_congr_left (fun r hr => if_neg (by simp [h r hr]))]
      simp
    rw [hmap]
    exact mark_remote_applied_id mid ops meta h

/-- A successful `applyOne` rewrites the ledger only through the
remote-mirror marking. -/
theorem applyOne_ok_meta (st : SyncDb) (b : Bucket) (c : RemoteDeltaObject) (st1 : SyncDb)
    (h : applyOne st b c = .ok st1) :
    ∃ delta : Delta, st1.sync_metadata =
      mark_remote_applied_operations_synced st.sync_metadata
        (current_max_sync_metadata_id st.sync_metadata) delta.operations := by
  unfold applyOne at h
  cases hdl : getAssoc b c.key with
  | none => rw [hdl] at h; cases h
  | some obj =>
  rw [hdl] at h
  cases obj with
  | snapshot s => cases h
  | delta blob =>
  dsimp only at h
  cases hdec : Delta.decompress blob with
  | error e => rw [hdec] at h; cases h
  | ok delta =>
  rw [hdec] at h
  dsimp only at h
  by_cases hck : Delta.calculate_checksum delta.operations = delta.checksum
  · rw [if_pos hck] at h
    cases happ : apply_delta st.db st.vector_clocks delta with
    | error e => rw [happ] at h; cases h
    | ok pair =>
      rw [happ] at h
      dsimp only at h
      cases h
      exact ⟨delta, rfl⟩
  · rw [if_neg hck] at h
    cases h

/-- A successful apply loop over an all-synced ledger leaves the ledger
unchanged. -/
theorem applyLoop_ok_meta (b : Bucket) :
    ∀ (cands : List RemoteDeltaObject) (st st2 : SyncDb),
      (∀ r ∈ st.sync_metadata, r.synced = true) →
      applyLoop b st cands = (st2, none) →
      st2.sync_metadata = st.sync_metadata
  | [], st, st2, _, h => by
    cases h
    rfl
  | c :: cands, st, st2, hs, h => by
    unfold applyLoop at h
    cases hone : applyOne st b c with
    | error e => rw [hone] at h; cases h
    | ok st1 =>
      rw [hone] at h
      rcases applyOne_ok_meta st b c st1 hone with ⟨delta, hmeta⟩
      have hmeta' : st1.sync_metadata = st.sync_metadata := by
        rw [hmeta]
        exact mark_remote_applied_id _ delta.operations st.sync_metadata hs
      have hs1 : ∀ r ∈ st1.sync_metadata, r.synced = true := by
        rw [hmeta']
        exact hs
      rw [applyLoop_ok_meta b cands st1 st2 hs1 h]
      exact hmeta'

/-- An empty collected delta means every ledger row is synced. -/
theorem collect_ops_nil_all_synced (st : SyncDb) (dev rfc : String)
    (h : (collect_local_delta st dev rfc).delta.operations = []) :
    ∀ r ∈ st.sync_metadata, r.synced = true := by
  intro r hr
  by_contra hns
  have hmem : r ∈ st.sync_metadata.filter (fun r => ¬ r.synced) :=
    List.mem_filter.mpr ⟨hr, by simpa using hns⟩
  have hperm := List.perm_insertionSort metaRowLE (st.sync_metadata.filter (fun r => ¬ r.synced))
  have hmem' : r ∈ List.insertionSort metaRowLE (st.sync_metadata.filter (fun r => ¬ r.synced)) :=
    hperm.mem_iff.mpr hmem
  have : operationOfMetaRow r ∈ (collect_local_delta st dev rfc).delta.operations := by
    unfold collect_local_delta
    exact List.mem_map_of_mem operationOfMetaRow hmem'
  rw [h] at this
  cases this

/-- Stripping a list prefix off itself followed by anything succeeds. -/
theorem stripPreList_append (xs ys : List Char) : stripPreList xs (xs ++ ys) = some ys := by
  induction xs with
  | nil => rfl
  | cons x xs ih => simp [stripPreList, ih]

/-- A string starts with any of its own prefixes. -/
theorem strStarts_append (p rest : String) : strStarts p (p ++ rest) = true := by
  unfold strStarts
  have hd : (p ++ rest).data = p.data ++ rest.data := rfl
  rw [hd, stripPreList_append]
  rfl

/-- The key just written is among the store's keys. -/
theorem mem_keys_setAssoc {β : Type} :
    ∀ (l : List (String × β)) (k : String) (v : β), k ∈ (setAssoc l k v).map Prod.fst
  | [], k, v => by simp [setAssoc]
  | p :: rest, k, v => by
    by_cases hp : p.1 = k
    · simp [setAssoc, hp]
    · simp only [setAssoc, if_neg hp, List.map_cons, List.mem_cons]
      exact Or.inr (mem_keys_setAssoc rest k v)

/-- An uploaded object with a matching prefix shows up in the listing. -/
theorem s3List_setAssoc_mem (b : Bucket) (k : String) (o : S3Object) (p : String)
    (h : strStarts p k = true) : k ∈ s3List (setAssoc b k o) p := by
  unfold s3List
  exact List.mem_filter.mpr ⟨mem_keys_setAssoc b k o, h⟩

/-- Inversion of a successful pipeline run through its three phases. -/
theorem syncFullPipeline_ok_inv (dev : String) (now_ns : Int) (uuid nowRfc : String)
    (st : SyncDb) (b : Bucket) (st1 : SyncDb) (b1 : Bucket) (st' : SyncDb) (b' : Bucket)
    (hub : uploadAndBootstrap dev now_ns uuid nowRfc st b = (st1, b1, none))
    (hpipe : syncFullPipeline dev now_ns uuid nowRfc st b = (st', b', none)) :
    ∃ st2 : SyncDb, pullPhase dev st1 b1 = (st2, none) ∧
      st' = finalizePhase nowRfc st2 ∧ b' = b1 := by
  unfold syncFullPipeline at hpipe
  rw [hub] at hpipe
  dsimp only at hpipe
  cases hpull : pullPhase dev st1 b1 with
  | mk st2 eopt =>
    rw [hpull] at hpipe
    cases eopt with
    | some e => simp at hpipe
    | none =>
      dsimp only at hpipe
      simp only [Prod.mk.injEq] at hpipe
      obtain ⟨h1, h2, -⟩ := hpipe
      exact ⟨st2, rfl, h1.symm, h2.symm⟩

/-- The collected operations depend only on the ledger. -/
theorem collect_ops_eq_of_meta (st1 st2 : SyncDb) (dev rfc1 rfc2 : String)
    (h : st1.sync_metadata = st2.sync_metadata) :
    (collect_local_delta st1 dev rfc1).delta.operations =
      (collect_local_delta st2 dev rfc2).delta.operations := by
  unfold collect_local_delta
  dsimp only
  rw [h]

/-- C6: in a cycle whose collected local delta is empty, the bootstrap
step uploads a snapshot to `snapshots/latest-<device_id>.gz` exactly when
both the `snapshots/` and `deltas/` listings are empty; when either is
non-empty nothing is uploaded; the uploaded key is visible in the next
`snapshots/` listing, so a second cycle against the same bucket — whose
collected delta is again empty, the ledger being untouched — uploads no
second bootstrap snapshot. -/
theorem C6_bootstrap_snapshot (dev : String) (now_ns : Int) (uuid nowRfc : String)
    (st : SyncDb) (b : Bucket)
    (hops : (collect_local_delta st dev nowRfc).delta.operations = []) :
    ((s3List b "snapshots/" = [] ∧ s3List b "deltas/" = []) →
      ∀ snap : Snapshot, snapshot_manager_create st.db dev nowRfc = .ok snap →
        uploadAndBootstrap dev now_ns uuid nowRfc st b =
          (st, setAssoc b ("snapshots/latest-" ++ dev ++ ".gz") (.snapshot snap), none)) ∧
    (¬ (s3List b "snapshots/" = [] ∧ s3List b "deltas/" = []) →
      uploadAndBootstrap dev now_ns uuid nowRfc st b = (st, b, none)) ∧
    (∀ snap : Snapshot,
      s3List (setAssoc b ("snapshots/latest-" ++ dev ++ ".gz") (.snapshot snap)) "snapshots/"
        ≠ []) ∧
    (∀ (st' : SyncDb) (b' : Bucket),
      syncFullPipeline dev now_ns uuid nowRfc st b = (st', b', none) →
      ∀ (now2 : Int) (uuid2 rfc2 : String),
        (collect_local_delta st' dev rfc2).delta.operations = [] ∧
        (s3List b' "snapshots/" ≠ [] →
          uploadAndBootstrap dev now2 uuid2 rfc2 st' b' = (st', b', none))) := by
  have hstarts : strStarts "snapshots/" ("snapshots/latest-" ++ dev ++ ".gz") = true := rfl
  have hsync : ∀ r ∈ st.sync_metadata, r.synced = true :=
    collect_ops_nil_all_synced st dev nowRfc hops
  refine ⟨fun hbe snap hsnap => ?_, fun hbe => ?_, fun snap => ?_, fun st' b' hpipe now2 uuid2 rfc2 => ?_⟩
  · unfold uploadAndBootstrap
    rw [if_pos hops, if_pos hbe, hsnap]
  · unfold uploadAndBootstrap
    rw [if_pos hops, if_neg hbe]
  · intro hnil
    have hmem := s3List_setAssoc_mem b ("snapshots/latest-" ++ dev ++ ".gz") (.snapshot snap)
      "snapshots/" hstarts
    rw [hnil] at hmem
    cases hmem
  · -- invert the successful pipeline
    have hub : ∃ b1, uploadAndBootstrap dev now_ns uuid nowRfc st b = (st, b1, none) := by
      unfold uploadAndBootstrap
      rw [if_pos hops]
      by_cases hbe : (s3List b "snapshots/" = [] ∧ s3List b "deltas/" = [])
      · rw [if_pos hbe]
        cases hsnap : snapshot_manager_create st.db dev nowRfc with
        | error e =>
          exfalso
          unfold syncFullPipeline at hpipe
          rw [show uploadAndBootstrap dev now_ns uuid nowRfc st b = (st, b, some e) from by
            unfold uploadAndBootstrap
            rw [if_pos hops, if_pos hbe, hsnap]] at hpipe
          simp at hpipe
        | ok snap => exact ⟨_, rfl⟩
      · rw [if_neg hbe]
        exact ⟨b, rfl⟩
    rcases hub with ⟨b1, hub⟩
    rcases syncFullPipeline_ok_inv dev now_ns uuid nowRfc st b st b1 st' b' hub hpipe
      with ⟨st2, hpull, hst', hb'⟩
    have hmeta2 : st2.sync_metadata = st.sync_metadata := by
      unfold pullPhase at hpull
      exact applyLoop_ok_meta b1 _ st st2 hsync hpull
    have hmeta' : st'.sync_metadata = st.sync_metadata := by
      rw [hst']
      exact hmeta2
    have hops' : (collect_local_delta st' dev rfc2).delta.operations = [] := by
      rw [collect_ops_eq_of_meta st' st dev rfc2 nowRfc hmeta']
      exact hops
    refine ⟨hops', fun hne => ?_⟩
    unfold uploadAndBootstrap
    rw [if_pos hops', if_neg (fun hboth => hne hboth.1)]

/-- Witness for C6: an empty store against an empty bucket uploads the
bootstrap snapshot at `snapshots/latest-A.gz`. -/
theorem C6_bootstrap_snapshot_witness :
    (collect_local_delta exEmptyState "A" "t1").delta.operations = [] ∧
    s3List ([] : Bucket) "snapshots/" = [] ∧
    s3List ([] : Bucket) "deltas/" = [] ∧
    snapshot_manager_create exEmptyState.db "A" "t1" = .ok exEmptySnapshot ∧
    uploadAndBootstrap "A" 1 "u" "t1" exEmptyState [] =
      (exEmptyState, [("snapshots/latest-A.gz", .snapshot exEmptySnapshot)], none) := by
  have h := C6_bootstrap_snapshot "A" 1 "u" "t1" exEmptyState [] (by decide)
  refine ⟨by decide, by decide, by decide, by decide, ?_⟩
  exact (h.1 ⟨by decide, by decide⟩ exEmptySnapshot (by decide)).trans (by decide)


/-- The decimal digit character of a value below ten has the expected
code point. -/
theorem decDigitChar_toNat (m : Nat) (h : m < 10) : (decDigitChar m).toNat = 48 + m := by
  interval_cases m <;> rfl

/-- Reading back the digit character of `m < 10` recovers `m`. -/
theorem decDigitVal_decDigitChar (m : Nat) (h : m < 10) :
    decDigitVal? (decDigitChar m) = some m := by
  interval_cases m <;> rfl

/-- Unfolding one digit of the fold. -/
theorem parseNatCore_cons (c : Char) (cs : List Char) (acc d : Nat)
    (h : decDigitVal? c = some d) :
    parseNatCore (c :: cs) acc = parseNatCore cs (acc * 10 + d) := by
  conv_lhs => rw [parseNatCore]
  rw [h]

/-- A non-digit character stops the fold. -/
theorem parseNatCore_cons_none (c : Char) (cs : List Char) (acc : Nat)
    (h : decDigitVal? c = none) :
    parseNatCore (c :: cs) acc = none := by
  conv_lhs => rw [parseNatCore]
  rw [h]

/-- Splitting a digit fold over an append. -/
theorem parseNatCore_append (xs ys : List Char) :
    ∀ acc : Nat, parseNatCore (xs ++ ys) acc =
      match parseNatCore xs acc with
      | some m => parseNatCore ys m
      | none => none := by
  induction xs with
  | nil => intro acc; rfl
  | cons c cs ih =>
    intro acc
    rw [List.cons_append]
    cases hd : decDigitVal? c with
    | some d =>
      rw [parseNatCore_cons c (cs ++ ys) acc d hd, parseNatCore_cons c cs acc d hd]
      exact ih (acc * 10 + d)
    | none =>
      rw [parseNatCore_cons_none c (cs ++ ys) acc hd, parseNatCore_cons_none c cs acc hd]

/-- The rendered digits of `n` (with adequate fuel) are non-empty decimal
digit characters, and folding them after an accumulator yields
`acc * 10 ^ len + n`. -/
theorem natDecDigits_spec :
    ∀ (fuel n : Nat), n < fuel →
      natDecDigits fuel n ≠ [] ∧
      (∀ c ∈ natDecDigits fuel n, 48 ≤ c.toNat ∧ c.toNat ≤ 57) ∧
      (∀ acc : Nat, parseNatCore (natDecDigits fuel n) acc =
        some (acc * 10 ^ (natDecDigits fuel n).length + n))
  | 0, n, h => absurd h (Nat.not_lt_zero n)
  | fuel + 1, n, h => by
    by_cases hn : n < 10
    · have hshape : natDecDigits (fuel + 1) n = [decDigitChar n] := by
        simp [natDecDigits, hn]
      refine ⟨by simp [hshape], ?_, ?_⟩
      · intro c hc
        rw [hshape] at hc
        rcases List.mem_singleton.mp hc with rfl
        rw [decDigitChar_toNat n hn]
        omega
      · intro acc
        rw [hshape, parseNatCore_cons _ _ _ _ (decDigitVal_decDigitChar n hn)]
        simp [parseNatCore]
    · have hdiv : n / 10 < fuel := by
        have h1 : n / 10 < n := Nat.div_lt_self (by omega) (by omega)
        omega
      have hmod : n % 10 < 10 := Nat.mod_lt n (by omega)
      obtain ⟨ihne, ihdig, ihparse⟩ := natDecDigits_spec fuel (n / 10) hdiv
      have hshape : natDecDigits (fuel + 1) n =
          natDecDigits fuel (n / 10) ++ [decDigitChar (n % 10)] := by
        simp [natDecDigits, hn]
      refine ⟨by simp [hshape], ?_, ?_⟩
      · intro c hc
        rw [hshape] at hc
        rcases List.mem_append.mp hc with hc | hc
        · exact ihdig c hc
        · rcases List.mem_singleton.mp hc with rfl
          rw [decDigitChar_toNat _ hmod]
          omega
      · intro acc
        rw [hshape, parseNatCore_append, ihparse acc]
        dsimp only
        rw [parseNatCore_cons _ _ _ _ (decDigitVal_decDigitChar _ hmod)]
        simp only [parseNatCore, List.length_append, List.length_cons, List.length_nil,
          pow_succ]
        refine congrArg some ?_
        have hdm : n / 10 * 10 + n % 10 = n := by omega
        calc (acc * 10 ^ (natDecDigits fuel (n / 10)).length + n / 10) * 10 + n % 10
            = acc * (10 ^ (natDecDigits fuel (n / 10)).length * 10) + (n / 10 * 10 + n % 10) := by
              ring
          _ = acc * (10 ^ (natDecDigits fuel (n / 10)).length * 10) + n := by rw [hdm]

/-- Dropping while a predicate fails on every element is the identity. -/
theorem dropWhile_eq_self_of_not (p : Char → Bool) (l : List Char)
    (h : ∀ c ∈ l, p c = false) : l.dropWhile p = l := by
  cases l with
  | nil => rfl
  | cons c cs =>
    rw [List.dropWhile_cons, h c (List.mem_cons_self c cs)]
    simp

/-- Trimming a list with no whitespace characters is the identity. -/
theorem trimChars_eq_self (cs : List Char) (h : ∀ c ∈ cs, isWsChar c = false) :
    trimChars cs = cs := by
  unfold trimChars
  rw [dropWhile_eq_self_of_not _ _ h,
    dropWhile_eq_self_of_not _ _ (fun c hc => h c (List.mem_reverse.mp hc)),
    List.reverse_reverse]

/-- Decimal digit characters are not whitespace. -/
theorem isWsChar_eq_false_of_digit (c : Char) (h48 : 48 ≤ c.toNat) (h57 : c.toNat ≤ 57) :
    isWsChar c = false := by
  have h1 : c ≠ ' ' := by intro he; rw [he] at h48; exact absurd h48 (by decide)
  have h2 : c ≠ '\t' := by intro he; rw [he] at h48; exact absurd h48 (by decide)
  have h3 : c ≠ '\n' := by intro he; rw [he] at h48; exact absurd h48 (by decide)
  have h4 : c ≠ '\r' := by intro he; rw [he] at h48; exact absurd h48 (by decide)
  simp [isWsChar, h1, h2, h3, h4]

/-- On a non-empty list the digit parser starts the fold at zero. -/
theorem parseDecNat_cons (c : Char) (cs : List Char) :
    parseDecNat? (c :: cs) = parseNatCore (c :: cs) 0 := rfl

/-- Parsing back the decimal rendering of an integer recovers the integer,
trim included: the composition Rust performs on stored cursor values. -/
theorem parseI64_intToDecString (i : Int) :
    parseI64? (strTrim (intToDecString i)) = some i := by
  by_cases hneg : i < 0
  · have hm : (0 : Int) ≤ -i := by omega
    obtain ⟨hne, hdig, hparse⟩ := natDecDigits_spec ((-i).toNat + 1) (-i).toNat
      (Nat.lt_succ_self _)
    have hdata : (intToDecString i).data = '-' :: natDecDigits ((-i).toNat + 1) (-i).toNat := by
      unfold intToDecString
      rw [if_pos hneg]
      rfl
    have htrim : strTrim (intToDecString i) =
        ⟨'-' :: natDecDigits ((-i).toNat + 1) (-i).toNat⟩ := by
      unfold strTrim
      rw [hdata]
      refine congrArg String.mk (trimChars_eq_self _ ?_)
      intro c hc
      rcases List.mem_cons.mp hc with rfl | hc
      · decide
      · exact isWsChar_eq_false_of_digit c (hdig c hc).1 (hdig c hc).2
    rw [htrim]
    unfold parseI64?
    dsimp only
    rw [if_pos rfl]
    cases hds : natDecDigits ((-i).toNat + 1) (-i).toNat with
    | nil => exact absurd hds hne
    | cons c rest =>
      rw [parseDecNat_cons, ← hds, hparse 0]
      simp
      omega
  · obtain ⟨hne, hdig, hparse⟩ := natDecDigits_spec (i.toNat + 1) i.toNat (Nat.lt_succ_self _)
    have hdata : (intToDecString i).data = natDecDigits (i.toNat + 1) i.toNat := by
      unfold intToDecString
      rw [if_neg hneg]
      rfl
    have htrim : strTrim (intToDecString i) = ⟨natDecDigits (i.toNat + 1) i.toNat⟩ := by
      unfold strTrim
      rw [hdata]
      refine congrArg String.mk (trimChars_eq_self _ ?_)
      intro c hc
      exact isWsChar_eq_false_of_digit c (hdig c hc).1 (hdig c hc).2
    rw [htrim]
    cases hds : natDecDigits (i.toNat + 1) i.toNat with
    | nil => exact absurd hds hne
    | cons c rest =>
      have hmem : c ∈ natDecDigits (i.toNat + 1) i.toNat := by
        rw [hds]
        exact List.mem_cons_self c rest
      have hc48 := (hdig c hmem).1
      have hnm : ¬ (c = '-') := by
        intro he
        rw [he] at hc48
        exact absurd hc48 (by decide)
      have hnp : ¬ (c = '+') := by
        intro he
        rw [he] at hc48
        exact absurd hc48 (by decide)
      unfold parseI64?
      dsimp only
      rw [if_neg hnm, if_neg hnp]
      rw [parseDecNat_cons, ← hds, hparse 0]
      simp
      omega

/-- The last element from a given source device in a candidate list. -/
def lastSource : List RemoteDeltaObject → String → Option RemoteDeltaObject
  | [], _ => none
  | c :: rest, s =>
    match lastSource rest s with
    | some z => some z
    | none => if c.source_device_id = s then some c else none

/-- Per-source cursor keys are injective in the source device id. -/
theorem remote_delta_cursor_key_inj (a b : String)
    (h : remote_delta_cursor_key a = remote_delta_cursor_key b) : a = b := by
  unfold remote_delta_cursor_key at h
  have hd := congrArg String.data h
  rw [String.data_append, String.data_append] at hd
  have hdd := List.append_cancel_left hd
  cases a with
  | mk da =>
    cases b with
    | mk db => exact congrArg String.mk hdd

/-- A per-source cursor key is never the `last_sync` key. -/
theorem remote_delta_cursor_key_ne_last_sync (s : String) :
    remote_delta_cursor_key s ≠ "last_sync" := by
  intro h
  unfold remote_delta_cursor_key at h
  have hl := congrArg List.length (congrArg String.data h)
  rw [String.data_append, List.length_append] at hl
  have h1 : ("last_remote_delta_ts::" : String).data.length = 22 := rfl
  have h2 : ("last_sync" : String).data.length = 9 := rfl
  rw [h1, h2] at hl
  omega

/-- A per-source cursor key is never the `last_sync_error` key. -/
theorem remote_delta_cursor_key_ne_last_sync_error (s : String) :
    remote_delta_cursor_key s ≠ "last_sync_error" := by
  intro h
  unfold remote_delta_cursor_key at h
  have hl := congrArg List.length (congrArg String.data h)
  rw [String.data_append, List.length_append] at hl
  have h1 : ("last_remote_delta_ts::" : String).data.length = 22 := rfl
  have h2 : ("last_sync_error" : String).data.length = 15 := rfl
  rw [h1, h2] at hl
  omega

/-- Steps 1–4 never touch the configuration table: every branch of the
upload/bootstrap phase returns the entry configuration. -/
theorem uploadAndBootstrap_config (dev : String) (now_ns : Int) (uuid nowRfc : String)
    (st : SyncDb) (b : Bucket) (st1 : SyncDb) (b1 : Bucket) (e : Option AppError)
    (h : uploadAndBootstrap dev now_ns uuid nowRfc st b = (st1, b1, e)) :
    st1.config = st.config := by
  unfold uploadAndBootstrap at h
  by_cases hops : (collect_local_delta st dev nowRfc).delta.operations = []
  · rw [if_pos hops] at h
    by_cases hbe : (s3List b "snapshots/" = [] ∧ s3List b "deltas/" = [])
    · rw [if_pos hbe] at h
      cases hsnap : snapshot_manager_create st.db dev nowRfc with
      | ok snap =>
        rw [hsnap] at h
        dsimp only at h
        simp only [Prod.mk.injEq] at h
        rw [← h.1]
      | error e' =>
        rw [hsnap] at h
        dsimp only at h
        simp only [Prod.mk.injEq] at h
        rw [← h.1]
    · rw [if_neg hbe] at h
      simp only [Prod.mk.injEq] at h
      rw [← h.1]
  · rw [if_neg hops] at h
    dsimp only at h
    cases hmid : (collect_local_delta st dev nowRfc).max_sync_meta_id with
    | some mid =>
      rw [hmid] at h
      dsimp only at h
      simp only [Prod.mk.injEq] at h
      rw [← h.1]
    | none =>
      rw [hmid] at h
      dsimp only at h
      simp only [Prod.mk.injEq] at h
      rw [← h.1]

/-- A successfully applied candidate stores its own timestamp under its
source's cursor key and changes no other configuration entry. -/
theorem applyOne_ok_config (st : SyncDb) (b : Bucket) (c : RemoteDeltaObject) (st1 : SyncDb)
    (h : applyOne st b c = .ok st1) :
    st1.config = set_remote_delta_cursor_timestamp st.config c.source_device_id c.timestamp := by
  unfold applyOne at h
  cases hdl : getAssoc b c.key with
  | none => rw [hdl] at h; cases h
  | some obj =>
  rw [hdl] at h
  cases obj with
  | snapshot s => cases h
  | delta blob =>
  dsimp only at h
  cases hdec : Delta.decompress blob with
  | error e => rw [hdec] at h; cases h
  | ok delta =>
  rw [hdec] at h
  dsimp only at h
  by_cases hck : Delta.calculate_checksum delta.operations = delta.checksum
  · rw [if_pos hck] at h
    cases happ : apply_delta st.db st.vector_clocks delta with
    | error e => rw [happ] at h; cases h
    | ok pair =>
      rw [happ] at h
      dsimp only at h
      cases h
      rfl
  · rw [if_neg hck] at h
    cases h

/-- What `lastSource` returns is a member of the list from that source. -/
theorem lastSource_mem :
    ∀ (l : List RemoteDeltaObject) (s : String) (z : RemoteDeltaObject),
      lastSource l s = some z → z ∈ l ∧ z.source_device_id = s
  | [], _, z, h => by cases h
  | c :: rest, s, z, h => by
    unfold lastSource at h
    cases hls : lastSource rest s with
    | some z' =>
      rw [hls] at h
      dsimp only at h
      cases h
      rcases lastSource_mem rest s z hls with ⟨h1, h2⟩
      exact ⟨List.mem_cons_of_mem c h1, h2⟩
    | none =>
      rw [hls] at h
      dsimp only at h
      by_cases hsrc : c.source_device_id = s
      · rw [if_pos hsrc] at h
        cases h
        exact ⟨List.mem_cons_self c rest, hsrc⟩
      · rw [if_neg hsrc] at h
        cases h

/-- In a list sorted by the pipeline's apply order, every element is
dominated in timestamp by the last element from its own source. -/
theorem lastSource_ts_max :
    ∀ (l : List RemoteDeltaObject), l.Pairwise candLE →
      ∀ c ∈ l, ∃ z : RemoteDeltaObject,
        lastSource l c.source_device_id = some z ∧ c.timestamp ≤ z.timestamp
  | [], _, c, hc => absurd hc (List.not_mem_nil c)
  | c0 :: rest, hp, c, hc => by
    rcases List.pairwise_cons.mp hp with ⟨hall, hprest⟩
    rcases List.mem_cons.mp hc with rfl | hcr
    · cases hls : lastSource rest c.source_device_id with
      | none =>
        refine ⟨c, ?_, le_refl _⟩
        unfold lastSource
        rw [hls]
        dsimp only
        rw [if_pos rfl]
      | some z =>
        rcases lastSource_mem rest _ z hls with ⟨hzmem, hzsrc⟩
        have hle := hall z hzmem
        refine ⟨z, ?_, ?_⟩
        · unfold lastSource
          rw [hls]
        · rcases hle with h | ⟨heq, h⟩
          · rw [hzsrc] at h
            exact absurd h (lt_irrefl _)
          · rcases h with h | ⟨h, _⟩
            · exact le_of_lt h
            · exact le_of_eq h
    · rcases lastSource_ts_max rest hprest c hcr with ⟨z, hz1, hz2⟩
      refine ⟨z, ?_, hz2⟩
      unfold lastSource
      rw [hz1]

/-- After a successful apply loop, the cursor of a source is the
timestamp of the last applied candidate from that source, and the
cursor of any source with no candidate in the run is untouched. -/
theorem applyLoop_cursor (b : Bucket) :
    ∀ (cands : List RemoteDeltaObject) (st st2 : SyncDb),
      applyLoop b st cands = (st2, none) →
      ∀ s : String, getAssoc st2.config (remote_delta_cursor_key s) =
        match lastSource cands s with
        | some z => some (intToDecString z.timestamp)
        | none => getAssoc st.config (remote_delta_cursor_key s)
  | [], st, st2, h, s => by cases h; rfl
  | c :: cands, st, st2, h, s => by
    unfold applyLoop at h
    cases hone : applyOne st b c with
    | error e => rw [hone] at h; cases h
    | ok st1 =>
      rw [hone] at h
      dsimp only at h
      have hcfg := applyOne_ok_config st b c st1 hone
      have ih := applyLoop_cursor b cands st1 st2 h s
      unfold lastSource
      cases hls : lastSource cands s with
      | some z =>
        rw [hls] at ih
        dsimp only
        exact ih
      | none =>
        rw [hls] at ih
        dsimp only
        by_cases hsrc : c.source_device_id = s
        · rw [if_pos hsrc]
          rw [ih, hcfg]
          unfold set_remote_delta_cursor_timestamp
          rw [hsrc]
          exact getAssoc_setAssoc_self _ _ _
        · rw [if_neg hsrc]
          rw [ih, hcfg]
          unfold set_remote_delta_cursor_timestamp
          exact getAssoc_setAssoc_ne _ _ _ _
            (fun he => hsrc (remote_delta_cursor_key_inj _ _ he).symm)

/-- A parsed remote delta object records the key it was parsed from. -/
theorem parse_remote_delta_object_key (k : String) (c : RemoteDeltaObject)
    (h : parse_remote_delta_object k = some c) : c.key = k := by
  unfold parse_remote_delta_object at h
  simp only [Option.bind_eq_bind, Option.bind_eq_some, Option.pure_def,
    Option.some.injEq] at h
  obtain ⟨rest, -, p, -, h⟩ := h
  obtain ⟨src, fn⟩ := p
  obtain ⟨noPre, -, core, -, ts, -, h⟩ := h
  rw [← h]

/-- Membership in the pull candidate list, unfolded: a parseable key under
`deltas/`, from another device, with a timestamp strictly above the
stored per-source cursor. -/
theorem mem_pullCandidates_iff (dev : String) (st : SyncDb) (b : Bucket)
    (c : RemoteDeltaObject) :
    c ∈ pullCandidates dev st b ↔
      (c.key ∈ s3List b "deltas/" ∧ parse_remote_delta_object c.key = some c ∧
       c.source_device_id ≠ dev ∧
       c.timestamp > (get_remote_delta_cursor_timestamp st.config c.source_device_id).getD 0) := by
  unfold pullCandidates
  rw [List.mem_filter]
  constructor
  · rintro ⟨hmem, hpred⟩
    rcases List.mem_filterMap.mp hmem with ⟨k, hk, hparse⟩
    have hkey : c.key = k := parse_remote_delta_object_key k c hparse
    rw [← hkey] at hk hparse
    simp only [decide_eq_true_eq] at hpred
    exact ⟨hk, hparse, hpred.1, hpred.2⟩
  · rintro ⟨hk, hparse, h1, h2⟩
    refine ⟨List.mem_filterMap.mpr ⟨c.key, hk, hparse⟩, ?_⟩
    simp only [decide_eq_true_eq]
    exact ⟨h1, h2⟩

/-- C2: after a successful cycle, (i) the pull phase kept exactly the
parseable foreign keys with timestamp strictly above the stored
per-source cursor; (ii) for every applied candidate the final per-source
cursor holds the timestamp of the last applied candidate from that
source (at least the candidate's own timestamp — its own when it is the
last), so the candidate no longer qualifies against the final state; and
(iii) every per-source cursor is monotonically non-decreasing across the
cycle. -/
theorem C2_cursor_advancement (dev : String) (now_ns : Int) (uuid nowRfc : String)
    (st : SyncDb) (b : Bucket) (st1 : SyncDb) (b1 : Bucket) (st' : SyncDb) (b' : Bucket)
    (hub : uploadAndBootstrap dev now_ns uuid nowRfc st b = (st1, b1, none))
    (hpipe : syncFullPipeline dev now_ns uuid nowRfc st b = (st', b', none)) :
    (∀ c : RemoteDeltaObject, c ∈ pullCandidates dev st1 b1 ↔
        (c.key ∈ s3List b1 "deltas/" ∧ parse_remote_delta_object c.key = some c ∧
         c.source_device_id ≠ dev ∧
         c.timestamp > (get_remote_delta_cursor_timestamp st.config c.source_device_id).getD 0)) ∧
    (∀ c ∈ pullCandidates dev st1 b1,
        (∃ z : RemoteDeltaObject, z ∈ pullCandidates dev st1 b1 ∧
          z.source_device_id = c.source_device_id ∧ c.timestamp ≤ z.timestamp ∧
          getAssoc st'.config (remote_delta_cursor_key c.source_device_id) =
            some (intToDecString z.timestamp) ∧
          get_remote_delta_cursor_timestamp st'.config c.source_device_id = some z.timestamp) ∧
        c ∉ pullCandidates dev st' b') ∧
    (∀ s : String,
        (get_remote_delta_cursor_timestamp st.config s).getD 0 ≤
        (get_remote_delta_cursor_timestamp st'.config s).getD 0) := by
  obtain ⟨st2, hpull, hst', hb'⟩ :=
    syncFullPipeline_ok_inv dev now_ns uuid nowRfc st b st1 b1 st' b' hub hpipe
  have hcfg1 : st1.config = st.config :=
    uploadAndBootstrap_config dev now_ns uuid nowRfc st b st1 b1 none hub
  unfold pullPhase at hpull
  have hcursor := applyLoop_cursor b1 _ st1 st2 hpull
  have hc' : ∀ s : String, getAssoc st'.config (remote_delta_cursor_key s) =
      getAssoc st2.config (remote_delta_cursor_key s) := by
    intro s
    rw [hst']
    unfold finalizePhase
    dsimp only
    rw [getAssoc_delAssoc_ne _ _ _ (remote_delta_cursor_key_ne_last_sync_error s),
      getAssoc_setAssoc_ne _ _ _ _ (remote_delta_cursor_key_ne_last_sync s)]
  have hsorted : (List.insertionSort candLE (pullCandidates dev st1 b1)).Pairwise candLE :=
    List.sorted_insertionSort candLE (pullCandidates dev st1 b1)
  have hperm : (List.insertionSort candLE (pullCandidates dev st1 b1)).Perm
      (pullCandidates dev st1 b1) :=
    List.perm_insertionSort candLE (pullCandidates dev st1 b1)
  refine ⟨fun c => by rw [mem_pullCandidates_iff, hcfg1], ?_, ?_⟩
  · intro c hc
    have hcs : c ∈ List.insertionSort candLE (pullCandidates dev st1 b1) :=
      hperm.mem_iff.mpr hc
    obtain ⟨z, hlast, hle⟩ := lastSource_ts_max _ hsorted c hcs
    obtain ⟨hzmem, hzsrc⟩ := lastSource_mem _ _ _ hlast
    have hzc : z ∈ pullCandidates dev st1 b1 := hperm.mem_iff.mp hzmem
    have hcur2 := hcursor c.source_device_id
    rw [hlast] at hcur2
    dsimp only at hcur2
    have hcur' : getAssoc st'.config (remote_delta_cursor_key c.source_device_id) =
        some (intToDecString z.timestamp) := by
      rw [hc' _, hcur2]
    have hget' : get_remote_delta_cursor_timestamp st'.config c.source_device_id =
        some z.timestamp := by
      unfold get_remote_delta_cursor_timestamp
      rw [hcur']
      exact parseI64_intToDecString z.timestamp
    refine ⟨⟨z, hzc, hzsrc, hle, hcur', hget'⟩, ?_⟩
    intro hmem'
    have h2 := ((mem_pullCandidates_iff dev st' b' c).mp hmem').2.2.2
    rw [hget'] at h2
    simp only [Option.getD_some] at h2
    omega
  · intro s
    have hcur2 := hcursor s
    cases hls : lastSource (List.insertionSort candLE (pullCandidates dev st1 b1)) s with
    | none =>
      rw [hls] at hcur2
      dsimp only at hcur2
      have heq : get_remote_delta_cursor_timestamp st'.config s =
          get_remote_delta_cursor_timestamp st.config s := by
        unfold get_remote_delta_cursor_timestamp
        rw [hc' s, hcur2, hcfg1]
      rw [heq]
    | some z =>
      rw [hls] at hcur2
      dsimp only at hcur2
      obtain ⟨hzmem, hzsrc⟩ := lastSource_mem _ _ _ hls
      have hzc : z ∈ pullCandidates dev st1 b1 := hperm.mem_iff.mp hzmem
      have hzfilter := ((mem_pullCandidates_iff dev st1 b1 z).mp hzc).2.2.2
      rw [hcfg1] at hzfilter
      have hget' : get_remote_delta_cursor_timestamp st'.config s = some z.timestamp := by
        unfold get_remote_delta_cursor_timestamp
        rw [hc' s, hcur2]
        exact parseI64_intToDecString z.timestamp
      rw [hzsrc] at hzfilter
      rw [hget']
      simp only [Option.getD_some]
      omega

/-- A delete operation used by the cursor witness scenario. -/
def exC2Op : Operation :=
  { table_name := "persons", record_id := "p9", op_type := .Delete, data := none, version := 1 }

/-- A remote delta from device "B", with a correctly computed checksum. -/
def exC2Delta : Delta :=
  { id := 1, operations := [exC2Op], device_id := "B", vector_clock := ⟨[("B", 1)]⟩,
    created_at := "t", checksum := Delta.calculate_checksum [exC2Op] }

/-- A bucket holding that delta under a timestamp-7 key. -/
def exC2Bucket : Bucket :=
  [("deltas/B/delta-7-u.gz", .delta (Delta.compress exC2Delta))]

/-- The parsed candidate for that key. -/
def exC2Cand : RemoteDeltaObject :=
  { key := "deltas/B/delta-7-u.gz", source_device_id := "B", timestamp := 7 }

/-- The device state after a full cycle of the witness scenario: cursor
for "B" at 7, `last_sync` recorded, remote clock merged. -/
def exC2Final : SyncDb :=
  { config := [("last_remote_delta_ts::B", "7"), ("last_sync", "t1")],
    sync_metadata := [], db := Db.empty, vector_clocks := [("B", 1)] }

/-- Witness for C2: device "A" against a bucket holding one delta from
"B" at timestamp 7 ends the cycle with the "B" cursor at 7 and the
object filtered out of the next pull. -/
theorem C2_cursor_advancement_witness :
    (get_remote_delta_cursor_timestamp exEmptyState.config "B").getD 0 ≤
      (get_remote_delta_cursor_timestamp exC2Final.config "B").getD 0 ∧
    exC2Cand ∉ pullCandidates "A" exC2Final exC2Bucket := by
  have h := C2_cursor_advancement "A" 1 "u" "t1" exEmptyState exC2Bucket exEmptyState
    exC2Bucket exC2Final exC2Bucket (by decide) (by decide)
  exact ⟨h.2.2 "B", (h.2.1 exC2Cand (by decide)).2⟩

/-- One step of the apply loop. -/
theorem applyLoop_cons (b : Bucket) (st : SyncDb) (c : RemoteDeltaObject)
    (rest : List RemoteDeltaObject) :
    applyLoop b st (c :: rest) =
      match applyOne st b c with
      | .ok st1 => applyLoop b st1 rest
      | .error e => (st, some e) := by
  conv_lhs => rw [applyLoop]

/-- The apply loop composes over an append when the first half succeeds. -/
theorem applyLoop_append (b : Bucket) :
    ∀ (l1 l2 : List RemoteDeltaObject) (st st2 : SyncDb),
      applyLoop b st l1 = (st2, none) →
      applyLoop b st (l1 ++ l2) = applyLoop b st2 l2
  | [], l2, st, st2, h => by cases h; rfl
  | c :: l1, l2, st, st2, h => by
    unfold applyLoop at h
    rw [List.cons_append]
    cases hone : applyOne st b c with
    | error e =>
      rw [hone] at h
      dsimp only at h
      simp at h
    | ok st' =>
      rw [hone] at h
      dsimp only at h
      rw [applyLoop_cons, hone]
      dsimp only
      exact applyLoop_append b l1 l2 st' st2 h

/-- A list with no element from a source has no last element from it. -/
theorem lastSource_eq_none :
    ∀ (l : List RemoteDeltaObject) (s : String),
      (∀ p ∈ l, p.source_device_id ≠ s) → lastSource l s = none
  | [], _, _ => rfl
  | c :: rest, s, h => by
    unfold lastSource
    rw [lastSource_eq_none rest s (fun p hp => h p (List.mem_cons_of_mem c hp))]
    dsimp only
    rw [if_neg (h c (List.mem_cons_self c rest))]

/-- A downloaded delta whose recomputed checksum disagrees with its
embedded checksum makes `applyOne` fail with the sync error the code
formats, before any state change. -/
theorem applyOne_checksum_mismatch (st : SyncDb) (b : Bucket) (c : RemoteDeltaObject)
    (blob : Json) (d : Delta)
    (hdl : getAssoc b c.key = some (.delta blob))
    (hdec : Delta.decompress blob = .ok d)
    (hck : Delta.calculate_checksum d.operations ≠ d.checksum) :
    applyOne st b c = .error (AppError.Sync ("Checksum mismatch for remote delta " ++ c.key)) := by
  unfold applyOne
  rw [hdl]
  dsimp only
  rw [hdec]
  dsimp only
  rw [if_neg hck]

/-- C3 (amended): when the sorted candidate list is `pre ++ c :: rest`,
`pre` applies cleanly and `c`'s delta fails its checksum check, the cycle
stops at `c` with a Sync error carrying "Checksum mismatch", keeping the
state reached after `pre` (the corrupt delta itself is not applied and
its processing advances no cursor); if no candidate in `pre` came from
`c`'s source, the cursor of that source is exactly as it was before the
cycle.  (The original claim's unconditional "cursor not advanced" fails:
an earlier applied candidate from the same source does advance it — see
the counterexample.) -/
theorem C3_checksum_mismatch (dev : String) (now_ns : Int) (uuid nowRfc : String)
    (st : SyncDb) (b : Bucket) (st1 st2 : SyncDb) (b1 : Bucket)
    (pre rest : List RemoteDeltaObject) (c : RemoteDeltaObject) (blob : Json) (d : Delta)
    (hub : uploadAndBootstrap dev now_ns uuid nowRfc st b = (st1, b1, none))
    (hsort : List.insertionSort candLE (pullCandidates dev st1 b1) = pre ++ c :: rest)
    (hpre : applyLoop b1 st1 pre = (st2, none))
    (hdl : getAssoc b1 c.key = some (.delta blob))
    (hdec : Delta.decompress blob = .ok d)
    (hck : Delta.calculate_checksum d.operations ≠ d.checksum) :
    syncFullPipeline dev now_ns uuid nowRfc st b =
      (st2, b1, some (AppError.Sync ("Checksum mismatch for remote delta " ++ c.key))) ∧
    ((∀ p ∈ pre, p.source_device_id ≠ c.source_device_id) →
      getAssoc st2.config (remote_delta_cursor_key c.source_device_id) =
        getAssoc st.config (remote_delta_cursor_key c.source_device_id)) := by
  have hcfg1 : st1.config = st.config :=
    uploadAndBootstrap_config dev now_ns uuid nowRfc st b st1 b1 none hub
  constructor
  · unfold syncFullPipeline
    rw [hub]
    dsimp only
    unfold pullPhase
    rw [hsort, applyLoop_append b1 pre (c :: rest) st1 st2 hpre]
    rw [show applyLoop b1 st2 (c :: rest) =
        (st2, some (AppError.Sync ("Checksum mismatch for remote delta " ++ c.key))) from by
      rw [applyLoop_cons, applyOne_checksum_mismatch st2 b1 c blob d hdl hdec hck]]
  · intro hfr
    have hcur := applyLoop_cursor b1 pre st1 st2 hpre c.source_device_id
    rw [lastSource_eq_none pre c.source_device_id hfr] at hcur
    dsimp only at hcur
    rw [hcur, hcfg1]

/-- A remote delta from "B" whose embedded checksum is corrupted. -/
def exC3BadDelta : Delta :=
  { id := 2, operations := [exC2Op], device_id := "B", vector_clock := ⟨[("B", 2)]⟩,
    created_at := "t", checksum := "corrupted" }

/-- A bucket holding a valid timestamp-5 delta from "B" and the corrupt
one, also at timestamp 5, under a lexicographically later key. -/
def exC3Bucket : Bucket :=
  [("deltas/B/delta-5-a.gz", .delta (Delta.compress exC2Delta)),
   ("deltas/B/delta-5-b.gz", .delta (Delta.compress exC3BadDelta))]

/-- The parsed candidate for the valid key. -/
def exC3GoodCand : RemoteDeltaObject :=
  { key := "deltas/B/delta-5-a.gz", source_device_id := "B", timestamp := 5 }

/-- The parsed candidate for the corrupt key. -/
def exC3BadCand : RemoteDeltaObject :=
  { key := "deltas/B/delta-5-b.gz", source_device_id := "B", timestamp := 5 }

/-- The state after the failing cycle of the counterexample: the "B"
cursor was advanced to 5 by the valid delta applied just before the
corrupt one failed. -/
def exC3Mid : SyncDb :=
  { config := [("last_remote_delta_ts::B", "5")], sync_metadata := [],
    db := Db.empty, vector_clocks := [("B", 1)] }

/-- A bucket holding only the corrupt delta. -/
def exC3WBucket : Bucket :=
  [("deltas/B/delta-5-b.gz", .delta (Delta.compress exC3BadDelta))]

/-- Counterexample to C3 as stated: the cycle fails on the corrupt delta
with the checksum-mismatch Sync error, yet the cursor for its source "B"
has advanced (from absent to 5, set by the valid same-source delta
applied earlier in the same cycle), and — the cursor now equal to the
corrupt object's timestamp — the object is filtered out of the next pull
instead of being retried. -/
theorem C3_checksum_mismatch_counterexample :
    syncFullPipeline "A" 2 "v" "t2" exEmptyState exC3Bucket =
      (exC3Mid, exC3Bucket,
        some (AppError.Sync "Checksum mismatch for remote delta deltas/B/delta-5-b.gz")) ∧
    get_remote_delta_cursor_timestamp exEmptyState.config "B" = none ∧
    get_remote_delta_cursor_timestamp exC3Mid.config "B" = some 5 ∧
    exC3BadCand ∉ pullCandidates "A" exC3Mid exC3Bucket := by
  refine ⟨?_, by decide, by decide, by decide⟩
  have hle : candLE exC3GoodCand exC3BadCand := by
    refine Or.inr ⟨rfl, Or.inr ⟨rfl, ?_⟩⟩
    rw [String.le_iff_toList_le]
    decide
  have hsort : List.insertionSort candLE (pullCandidates "A" exEmptyState exC3Bucket) =
      [exC3GoodCand, exC3BadCand] := by
    rw [show pullCandidates "A" exEmptyState exC3Bucket = [exC3GoodCand, exC3BadCand] from by
      decide]
    simp only [List.insertionSort, List.orderedInsert]
    rw [if_pos hle]
  unfold syncFullPipeline
  rw [show uploadAndBootstrap "A" 2 "v" "t2" exEmptyState exC3Bucket =
      (exEmptyState, exC3Bucket, none) from by decide]
  dsimp only
  unfold pullPhase
  rw [hsort, applyLoop_cons,
    show applyOne exEmptyState exC3Bucket exC3GoodCand = .ok exC3Mid from by decide]
  dsimp only
  rw [applyLoop_cons,
    show applyOne exC3Mid exC3Bucket exC3BadCand =
      .error (AppError.Sync "Checksum mismatch for remote delta deltas/B/delta-5-b.gz") from by
      decide]

/-- Witness for the amended C3: with the corrupt delta alone in the
bucket (`pre = []`), the cycle fails with the checksum-mismatch error
and the "B" cursor is untouched. -/
theorem C3_checksum_mismatch_witness :
    syncFullPipeline "A" 2 "v" "t2" exEmptyState exC3WBucket =
      (exEmptyState, exC3WBucket,
        some (AppError.Sync ("Checksum mismatch for remote delta " ++ exC3BadCand.key))) ∧
    getAssoc exEmptyState.config (remote_delta_cursor_key "B") =
      getAssoc exEmptyState.config (remote_delta_cursor_key "B") := by
  have h := C3_checksum_mismatch "A" 2 "v" "t2" exEmptyState exC3WBucket exEmptyState
    exEmptyState exC3WBucket [] [] exC3BadCand (Delta.compress exC3BadDelta) exC3BadDelta
    (by decide) (by decide) (by decide) (by decide) (by decide) (by decide)
  exact ⟨h.1, h.2 (by decide)⟩
